import Mathlib

/-!
Verification of the content-assistant application (browser editor with an AI
writing assistant and serverless proxy functions).

Shallow embedding: each JavaScript function named in the claims is translated
into an executable Lean definition operating on `String` / `List Char`
(JavaScript strings), `Nat` / `Int` / `Rat` (JavaScript numbers, with an
explicit NaN marker where the code can produce one), `Option` (null /
undefined) and `Except` (thrown errors).  Regular-expression matching in the
source is translated into explicit scanning functions whose semantics follow
the concrete regexes used by the code (all of them are deterministic: the
only quantifiers are greedy runs over character classes disjoint from their
successor, and lazy runs resolved by a first-occurrence search).
-/

namespace ContentAssistant

/-! ## Basic JavaScript string primitives -/

/-- Character membership of the JavaScript whitespace class for the ASCII
range (space, tab, line feed, carriage return, vertical tab, form feed). -/
def jsIsWs (c : Char) : Bool :=
  c = ' ' || c = '\t' || c = '\n' || c = '\r' || c = Char.ofNat 11 || c = Char.ofNat 12

/-- Model of `String.prototype.trim` on the character list. -/
def trimChars (l : List Char) : List Char :=
  (((l.dropWhile jsIsWs).reverse).dropWhile jsIsWs).reverse

/-- Model of `String.prototype.trim`. -/
def jsTrim (s : String) : String :=
  (trimChars s.toList).asString

/-- Model of `String.prototype.toLowerCase` (ASCII range). -/
def jsToLower (s : String) : String :=
  (s.toList.map Char.toLower).asString

/-- Test whether the literal `lit` occurs at the head of `l`. -/
def litAt (lit l : List Char) : Bool :=
  List.isPrefixOf lit l

/-- Case-insensitive variant of `litAt` (the literal is given lowercased). -/
def litAtCI (lit l : List Char) : Bool :=
  List.isPrefixOf lit (l.map Char.toLower)

/-- First index of `l` (counting from `i`) whose suffix satisfies `p`;
scans every suffix, including the empty one. -/
def firstSufIdx (p : List Char → Bool) : List Char → Nat → Option Nat
  | [], i => if p [] then some i else none
  | c :: rest, i => if p (c :: rest) then some i else firstSufIdx p rest (i + 1)

/-- Model of `String.prototype.indexOf` for a literal needle (case
sensitive), on character lists. -/
def findLit (lit l : List Char) : Option Nat :=
  firstSufIdx (litAt lit) l 0

/-- Case-insensitive first occurrence of a (lowercased) literal. -/
def findLitCI (lit l : List Char) : Option Nat :=
  firstSufIdx (litAtCI lit) l 0

/-- Model of `String.prototype.includes` for a literal needle. -/
def jsIncludes (s lit : String) : Bool :=
  (findLit lit.toList s.toList).isSome

/-- Single-character membership test, `String.prototype.includes` with a
one-character needle. -/
def jsIncludesChar (s : String) (c : Char) : Bool :=
  s.toList.contains c

/-- Model of `str.substring(i)` (drop the first `i` characters). -/
def jsDrop (s : String) (i : Nat) : String :=
  (s.toList.drop i).asString

/-- Model of `str.substring(0, i)` (take the first `i` characters). -/
def jsTake (s : String) (i : Nat) : String :=
  (s.toList.take i).asString

/-- Replace every (left-to-right, non-overlapping) occurrence of the literal
`pat` in `l` by `rep`; model of `String.prototype.replace` with a global
literal pattern.  Recursion is on the length of `l` via fuel. -/
def replaceAllAux (pat rep : List Char) : List Char → Nat → List Char
  | l, 0 => l
  | [], _ + 1 => []
  | c :: rest, fuel + 1 =>
    if litAt pat (c :: rest) && pat.length ≠ 0 then
      rep ++ replaceAllAux pat rep ((c :: rest).drop pat.length) fuel
    else
      c :: replaceAllAux pat rep rest fuel

/-- Model of a global literal `String.prototype.replace`. -/
def jsReplaceAll (s pat rep : String) : String :=
  (replaceAllAux pat.toList rep.toList s.toList (s.toList.length + 1)).asString

/-- Model of `String.prototype.split` with a single-character separator. -/
def jsSplitChar (s : String) (sep : Char) : List String :=
  (s.toList.splitOn sep).map List.asString

/-- The apostrophe character (U+0027). -/
def apos : Char := Char.ofNat 39

/-- One-character apostrophe string. -/
def aposS : String := String.singleton apos

/-! ## Chat history (`addToHistory`, assistant panel, claim C6)

Source (part_004):
```
function addToHistory(message, role) {
  if (chatHistory.length > 20) {
    chatHistory = chatHistory.slice(chatHistory.length - 20);
  }
  chatHistory.push({ role: role, content: message });
}
```
-/

/-- Transient chat message: a role/content pair. -/
structure ChatMsg where
  role : String
  content : String
deriving DecidableEq, Repr

/-- Model of `addToHistory`: trim the buffer to its most recent 20 entries
when its length exceeds 20, then push the new `{role, content}` entry. -/
def addToHistory (history : List ChatMsg) (m : ChatMsg) : List ChatMsg :=
  let trimmed := if 20 < history.length then history.drop (history.length - 20) else history
  trimmed ++ [m]

/-! ## Retry wrapper (`retryOperation`, claim C2)

The asynchronous operation is modelled as a function from the attempt index
to its outcome (`Except errMsg value`); the wrapper is modelled by a
fuel-indexed loop that also records how many times the operation was invoked
and which delays were slept. -/

/-- Classification used by `retryOperation`: token-limit errors. -/
def isTokenLimitError (msg : String) : Bool :=
  jsIncludes msg ("token limit") || jsIncludes msg ("max tokens") ||
    jsIncludes msg ("content too long")

/-- Classification used by `retryOperation`: overload errors. -/
def isOverloadedError (msg : String) : Bool :=
  jsIncludes msg ("status code 529") || jsIncludes msg ("overloaded") ||
    jsIncludes msg ("rate limit") || jsIncludes msg ("status code 429")

/-- Classification used by `retryOperation`: timeout errors. -/
def isTimeoutError (msg : String) : Bool :=
  jsIncludes msg ("timeout") || jsIncludes msg ("ETIMEDOUT") || jsIncludes msg ("504")

/-- Message thrown immediately on a token-limit error. -/
def tokenLimitThrowMsg : String :=
  "Content is too large for AI processing. Try selecting a smaller portion of text."

/-- Friendly message thrown after exhausting retries on a timeout. -/
def timeoutFinalMsg : String :=
  "The request timed out. The content might be too large to process at once."

/-- Observable behaviour of one `retryOperation` run: final outcome, number
of invocations of the operation, and the sequence of backoff sleeps. -/
structure RetryTrace (α : Type) where
  result : Except String α
  calls : Nat
  delays : List Nat
deriving Repr

/-- Fuel-indexed model of the `for (attempt = 0; attempt < maxRetries; ...)`
loop of `retryOperation`; `fuel` is `maxRetries - attempt`.  When the fuel
runs out the loop has been exhausted and the final rethrow logic runs (a
missing `lastError` corresponds to the `maxRetries = 0` run, where the
JavaScript code would throw a `TypeError` reading `lastError.message`). -/
def retryGo {α : Type} (op : Nat → Except String α) :
    Nat → Nat → Nat → Option String → RetryTrace α
  | _, 0, _, lastError =>
    { result := Except.error (match lastError with
        | none => "TypeError: lastError is undefined"
        | some e => if jsIncludes e ("timeout") then timeoutFinalMsg else e),
      calls := 0, delays := [] }
  | attempt, fuel + 1, delay, _ =>
    match op attempt with
    | Except.ok a => { result := Except.ok a, calls := 1, delays := [] }
    | Except.error e =>
      if isTokenLimitError e then
        { result := Except.error tokenLimitThrowMsg, calls := 1, delays := [] }
      else if fuel = 0 then
        -- last attempt (`attempt = maxRetries - 1`): no sleep, fall out of the loop
        let rest := retryGo op (attempt + 1) 0 delay (some e)
        { result := rest.result, calls := 1, delays := [] }
      else
        let d := if isOverloadedError e || isTimeoutError e then delay * 2 else delay
        let rest := retryGo op (attempt + 1) fuel d (some e)
        { result := rest.result, calls := rest.calls + 1, delays := d :: rest.delays }

/-- Model of `retryOperation(operation, maxRetries, initialDelay)`. -/
def retryOperation {α : Type} (op : Nat → Except String α)
    (maxRetries initialDelay : Nat) : RetryTrace α :=
  retryGo op 0 maxRetries initialDelay none

/-- Default `maxRetries` of `retryOperation`. -/
def defaultMaxRetries : Nat := 3

/-- Default `initialDelay` of `retryOperation` (milliseconds). -/
def defaultInitialDelay : Nat := 1000

/-! ## Client-side error classification (`handleApiError`, claim C7) -/

/-- Chat-message object returned by `handleApiError`. -/
structure ErrorReply where
  message : String
  suggestedContent : Option String
  mode : String
  errorType : String
deriving DecidableEq, Repr

/-- Fixed user-facing string for token-limit errors. -/
def tokenLimitUserMsg : String :=
  ("I can") ++ aposS ++
    ("t process this much text at once. Please try selecting a smaller portion or breaking your request into smaller parts.")

/-- Fixed user-facing string for timeouts. -/
def timeoutUserMsg : String :=
  "The request timed out. This usually happens when processing very large content. Try selecting a smaller portion of text or breaking your request into parts."

/-- Fixed user-facing string for rate limits. -/
def rateLimitUserMsg : String :=
  ("I") ++ aposS ++
    ("m getting too many requests right now. Please wait a moment and try again.")

/-- Reply object of the token-limit branch of `handleApiError`. -/
def tokenLimitReply : ErrorReply :=
  { message := tokenLimitUserMsg, suggestedContent := none,
    mode := "conversation", errorType := "token_limit" }

/-- Reply object of the timeout branch of `handleApiError`. -/
def timeoutReply : ErrorReply :=
  { message := timeoutUserMsg, suggestedContent := none,
    mode := "conversation", errorType := "timeout" }

/-- Reply object of the rate-limit branch of `handleApiError`. -/
def rateLimitReply : ErrorReply :=
  { message := rateLimitUserMsg, suggestedContent := none,
    mode := "conversation", errorType := "rate_limit" }

/-- Reply object of the default branch of `handleApiError`. -/
def generalReply (errorMessage : String) : ErrorReply :=
  { message := ("Sorry, I encountered an error: ") ++ errorMessage ++ (". Please try again later."),
    suggestedContent := none, mode := "conversation", errorType := "general" }

/-- Model of `handleApiError(error)`; the argument is `error.message`
(`none` models a missing message, replaced by the fixed fallback). -/
def handleApiError (errMsg : Option String) : ErrorReply :=
  let errorMessage := match errMsg with
    | none => "Unknown error occurred"
    | some m => m
  if jsIncludes errorMessage ("token limit") || jsIncludes errorMessage ("content too large")
      || jsIncludes errorMessage ("content too long") then
    tokenLimitReply
  else if jsIncludes errorMessage ("timeout") || jsIncludes errorMessage ("ETIMEDOUT") then
    timeoutReply
  else if jsIncludes errorMessage ("rate limit") || jsIncludes errorMessage ("429") then
    rateLimitReply
  else
    generalReply errorMessage

/-! ## Model-configuration validation (claim C9)

Two code sites are embedded: the `claude-assistant.js` handler (which runs
`parseFloat` / `parseInt` on the stored fields and range-checks the result)
and `BaseModelProvider` in `cors-handler.js` (constructor plus
`validateConfig`). -/

/-- A JavaScript number that may be NaN. -/
inductive JsNum where
  | nan : JsNum
  | val : ℚ → JsNum
deriving DecidableEq, Repr

/-- Result of `parseFloat` on the stored field: NaN, an infinity, or a
finite value. -/
inductive FloatParse where
  | nan : FloatParse
  | inf : FloatParse
  | ninf : FloatParse
  | num : ℚ → FloatParse
deriving DecidableEq, Repr

/-- Model of the temperature validation in `claude-assistant.js`:
`parseFloat` the stored field when present, reset to 0.7 when the result is
NaN or outside `[0, 1]`.  The argument is `none` when the stored field is
`undefined`/`null`, otherwise the `parseFloat` result. -/
def resolveTemperature (field : Option FloatParse) : ℚ :=
  match field with
  | none => 7 / 10
  | some FloatParse.nan => 7 / 10
  | some FloatParse.inf => 7 / 10      -- Infinity > 1
  | some FloatParse.ninf => 7 / 10     -- -Infinity < 0
  | some (FloatParse.num q) => if q < 0 ∨ 1 < q then 7 / 10 else q

/-- Model of the max-tokens validation in `claude-assistant.js`:
`parseInt` the stored field when present (`none` inside the option models a
NaN parse), reset to 4000 when NaN or non-positive. -/
def resolveMaxTokens (field : Option (Option ℤ)) : ℤ :=
  match field with
  | none => 4000
  | some none => 4000
  | some (some n) => if n ≤ 0 then 4000 else n

/-- Model of `this.temperature = parseFloat(modelConfig.Temperature || 0.7)`
followed by the range check in `BaseModelProvider.validateConfig`
(`cors-handler.js`).  A stored `0` is falsy and already replaced by the
default before parsing; a NaN parse is caught by the `isNaN` check. -/
def corsTemperature (field : Option JsNum) : ℚ :=
  let parsed : JsNum := match field with
    | none => JsNum.val (7 / 10)
    | some JsNum.nan => JsNum.nan
    | some (JsNum.val q) => if q = 0 then JsNum.val (7 / 10) else JsNum.val q
  match parsed with
  | JsNum.nan => 7 / 10
  | JsNum.val q => if q < 0 ∨ 1 < q then 7 / 10 else q

/-- Model of `this.maxTokens = modelConfig.MaxTokens || 4000` followed by the
check `if (this.maxTokens <= 0 || isNaN(this.maxTokens))` in
`BaseModelProvider.validateConfig` (`cors-handler.js`).  Note that unlike
`claude-assistant.js` this code never applies `parseInt`, so a fractional
stored value flows through unchanged. -/
def corsMaxTokens (field : Option JsNum) : JsNum :=
  let m0 : JsNum := match field with
    | none => JsNum.val 4000
    | some JsNum.nan => JsNum.val 4000          -- NaN is falsy
    | some (JsNum.val q) => if q = 0 then JsNum.val 4000 else JsNum.val q
  match m0 with
  | JsNum.nan => JsNum.val 4000
  | JsNum.val q => if q ≤ 0 then JsNum.val 4000 else JsNum.val q

/-! ## Placement heuristics (claims C4 and C5)

Two independent heuristics exist: `detectOperationType` in
`ai-response-handler.js` (driving the inline change visualizer) and
`detectChangeType` plus `applyChanges` in `simplified-ai-handler.js`
(driving the overlay view). -/

/-- Model of `detectOperationType(userRequest)` from
`ai-response-handler.js`: keyword matching on the lowercased request, in
source order. -/
def detectOperationType (userRequest : Option String) : String :=
  match userRequest with
  | none => "generic"
  | some u =>
    let request := jsToLower u
    if jsIncludes request ("headline") || jsIncludes request ("title") then "headline"
    else if jsIncludes request ("first paragraph") then "paragraph-first"
    else if jsIncludes request ("last paragraph") then "paragraph-last"
    else if jsIncludes request ("paragraph") then "paragraph"
    else if jsIncludes request ("proofread") || jsIncludes request ("grammar")
        || jsIncludes request ("spelling") || jsIncludes request ("fix errors") then "proofreading"
    else if jsIncludes request ("seo") || jsIncludes request ("keyword")
        || jsIncludes request ("search engine") then "seo"
    else "generic"

/-- Splice strategies of the inline visualizer path (`processResponse`,
rewrite branch, `ai-response-handler.js`). -/
inductive SpliceStrategy where
  | selectedText : SpliceStrategy
  | paragraphFirst : SpliceStrategy
  | paragraphLast : SpliceStrategy
  | headline : SpliceStrategy
  | appendEnd : SpliceStrategy
deriving DecidableEq, Repr

/-- Model of the placement dispatch in the single-rewrite branch of
`processResponse` (`ai-response-handler.js` lines 56-67): selected text is
rewritten in place; otherwise `detectOperationType` picks the first/last
paragraph or the headline, and every other operation type falls back to
`visualizeAppendedContent`, an insertion at the editor end. -/
def rewritePlacement (selectedText : Option String) (userRequest : Option String) :
    SpliceStrategy :=
  match selectedText with
  | some _ => SpliceStrategy.selectedText
  | none =>
    let op := detectOperationType userRequest
    if op = "paragraph-first" then SpliceStrategy.paragraphFirst
    else if op = "paragraph-last" then SpliceStrategy.paragraphLast
    else if op = "headline" then SpliceStrategy.headline
    else SpliceStrategy.appendEnd

/-- One pattern group of `this.changePatterns` in `simplified-ai-handler.js`,
expanded from the source regex into its finite list of literal alternatives
(each regex there is a concatenation of literals, optional literal groups
and literal alternations, tested case-insensitively against the lowercased
request). -/
def patternGroupMatches (alternatives : List String) (request : String) : Bool :=
  alternatives.any (fun a => jsIncludes request a)

/-- Alternatives of the `headline` group:
`/change (the )?headline/i`, `/improve (the )?title/i`,
`/better (headline|title)/i`, `/make (the )?(headline|title) more/i`. -/
def headlinePatterns : List String :=
  ["change headline", "change the headline",
   "improve title", "improve the title",
   "better headline", "better title",
   "make headline more", "make the headline more",
   "make title more", "make the title more"]

/-- Alternatives of the `subtitle` group:
`/add (a )?subtitle/i`, `/insert (a )?subtitle/i`, `/create (a )?subtitle/i`. -/
def subtitlePatterns : List String :=
  ["add subtitle", "add a subtitle",
   "insert subtitle", "insert a subtitle",
   "create subtitle", "create a subtitle"]

/-- Alternatives of the `expand` group:
`/expand (the )?(article|content|text)/i`,
`/make (the )?(article|content|text) longer/i`,
`/add more (content|details|information)/i`. -/
def expandPatterns : List String :=
  ["expand article", "expand content", "expand text",
   "expand the article", "expand the content", "expand the text",
   "make article longer", "make content longer", "make text longer",
   "make the article longer", "make the content longer", "make the text longer",
   "add more content", "add more details", "add more information"]

/-- Alternatives of the `shorten` group:
`/shorten (the )?(article|content|text)/i`,
`/make (the )?(article|content|text) (shorter|briefer)/i`,
`/reduce (the )?(word count|length)/i`. -/
def shortenPatterns : List String :=
  ["shorten article", "shorten content", "shorten text",
   "shorten the article", "shorten the content", "shorten the text",
   "make article shorter", "make content shorter", "make text shorter",
   "make the article shorter", "make the content shorter", "make the text shorter",
   "make article briefer", "make content briefer", "make text briefer",
   "make the article briefer", "make the content briefer", "make the text briefer",
   "reduce word count", "reduce length",
   "reduce the word count", "reduce the length"]

/-- Alternatives of the `rewrite` group:
`/rewrite (the )?(article|content|text|intro|paragraph)/i`,
`/revise (the )?(article|content|text|intro|paragraph)/i`. -/
def rewritePatterns : List String :=
  ["rewrite article", "rewrite content", "rewrite text", "rewrite intro", "rewrite paragraph",
   "rewrite the article", "rewrite the content", "rewrite the text",
   "rewrite the intro", "rewrite the paragraph",
   "revise article", "revise content", "revise text", "revise intro", "revise paragraph",
   "revise the article", "revise the content", "revise the text",
   "revise the intro", "revise the paragraph"]

/-- Alternatives of the `lists` group:
`/add (a )?list/i`, `/include (a )?list/i`, `/create (a )?list/i`. -/
def listsPatterns : List String :=
  ["add list", "add a list",
   "include list", "include a list",
   "create list", "create a list"]

/-- Alternatives of the `paragraph` group:
`/add (a )?paragraph/i`, `/insert (a )?paragraph/i`,
`/include (a )?paragraph/i`, `/write (a )?paragraph/i`. -/
def paragraphPatterns : List String :=
  ["add paragraph", "add a paragraph",
   "insert paragraph", "insert a paragraph",
   "include paragraph", "include a paragraph",
   "write paragraph", "write a paragraph"]

/-- Model of `detectChangeType(userRequest, aiResponse)` from
`simplified-ai-handler.js`: the pattern groups are scanned in insertion
order against the lowercased request; when none matches, the raw AI
response is probed for a few substrings; the default is `rewrite`. -/
def detectChangeType (userRequest aiResponse : String) : String :=
  let request := jsToLower userRequest
  if patternGroupMatches headlinePatterns request then "headline"
  else if patternGroupMatches subtitlePatterns request then "subtitle"
  else if patternGroupMatches expandPatterns request then "expand"
  else if patternGroupMatches shortenPatterns request then "shorten"
  else if patternGroupMatches rewritePatterns request then "rewrite"
  else if patternGroupMatches listsPatterns request then "lists"
  else if patternGroupMatches paragraphPatterns request then "paragraph"
  else if jsIncludes aiResponse ("headline") || jsIncludes aiResponse ("title") then "headline"
  else if jsIncludes aiResponse ("subtitle") then "subtitle"
  else if jsIncludes aiResponse ("list") then "lists"
  else "rewrite"

/-- Apply actions of `applyChanges` in `simplified-ai-handler.js`.
`paragraphAddition` pastes at the end of the editor; `fullContentChange`
clears the editor (`setText` with the empty string) and pastes at index 0,
a replacement of the whole document. -/
inductive SimplifiedApply where
  | headlineChange : SimplifiedApply
  | subtitleChange : SimplifiedApply
  | paragraphAddition : SimplifiedApply
  | selectedTextChange : SimplifiedApply
  | fullContentChange : SimplifiedApply
deriving DecidableEq, Repr

/-- Model of the dispatch in `applyChanges(html, changeType, originalContent)`
(`simplified-ai-handler.js` lines 133-158). -/
def applyChangesDispatch (changeType : String) (selectedText : Option String) :
    SimplifiedApply :=
  if changeType = "headline" then SimplifiedApply.headlineChange
  else if changeType = "subtitle" then SimplifiedApply.subtitleChange
  else if changeType = "paragraph" then SimplifiedApply.paragraphAddition
  else match selectedText with
    | some _ => SimplifiedApply.selectedTextChange
    | none => SimplifiedApply.fullContentChange

/-- Full placement pipeline of the simplified handler:
`processResponse` computes `detectChangeType` and `applyChanges` dispatches
on it. -/
def simplifiedStrategy (userRequest aiResponse : String)
    (selectedText : Option String) : SimplifiedApply :=
  applyChangesDispatch (detectChangeType userRequest aiResponse) selectedText

/-- A user message is free of every placement keyword checked by
`detectOperationType` when its lowercased form contains none of the probed
substrings. -/
def noPlacementKeywords (u : String) : Bool :=
  let request := jsToLower u
  !(jsIncludes request ("headline")) && !(jsIncludes request ("title")) &&
  !(jsIncludes request ("first paragraph")) && !(jsIncludes request ("last paragraph")) &&
  !(jsIncludes request ("paragraph")) && !(jsIncludes request ("proofread")) &&
  !(jsIncludes request ("grammar")) && !(jsIncludes request ("spelling")) &&
  !(jsIncludes request ("fix errors")) && !(jsIncludes request ("seo")) &&
  !(jsIncludes request ("keyword")) && !(jsIncludes request ("search engine"))

/-! ## Token estimation and content splitting (claim C10)

Source: `claude-assistant.js`, `estimateTokenCount` and `splitContent`. -/

/-- Model of `estimateTokenCount(text)`: `Math.ceil(text.length / 4)`. -/
def estimateTokenCount (s : String) : Nat :=
  (s.toList.length + 3) / 4

/-- Character after which the sentence splitter may cut. -/
def isSentenceEnd (prev : Option Char) : Bool :=
  prev = some '.' || prev = some '!' || prev = some '?'

mutual

/-- Sentence splitting of `content.split(/(?<=[.!?])\s+/)`: the string is
cut at every maximal whitespace run that immediately follows one of `.`,
`!`, `?`; the whitespace run is dropped.  `acc` is the (reversed) current
sentence, `prev` the previous character. -/
def splitSentencesGo : List Char → List Char → Option Char → List String
  | [], acc, _ => [acc.reverse.asString]
  | c :: rest, acc, prev =>
    if jsIsWs c && isSentenceEnd prev then
      acc.reverse.asString :: splitSentencesSkip rest
    else
      splitSentencesGo rest (c :: acc) (some c)

/-- Consume the remainder of the separator whitespace run, then resume
scanning the next sentence. -/
def splitSentencesSkip : List Char → List String
  | [] => [""]
  | c :: rest =>
    if jsIsWs c then splitSentencesSkip rest
    else splitSentencesGo rest [c] (some c)

end

/-- Model of `content.split(/(?<=[.!?])\s+/)`. -/
def splitSentences (content : String) : List String :=
  splitSentencesGo content.toList [] none

/-- Model of `sentence.split(' ')` (single-character separator; adjacent
separators yield empty pieces, as in JavaScript). -/
def splitWords (sentence : String) : List String :=
  jsSplitChar sentence ' '

/-- State of the sentence loop of `splitContent`: accumulated chunks (in
order) and the current chunk. -/
structure SplitState where
  chunks : List String
  currentChunk : String
deriving Repr

/-- Model of the inner word loop of `splitContent` (run when a single
sentence exceeds `maxChunkSize`): returns the chunks it pushes and the
final `wordChunk`. -/
def splitWordsLoop (maxChunkSize : Nat) : List String → String → List String × String
  | [], wordChunk => ([], wordChunk)
  | w :: rest, wordChunk =>
    let potential := wordChunk ++ w ++ " "
    if estimateTokenCount potential ≤ maxChunkSize then
      splitWordsLoop maxChunkSize rest potential
    else
      let (pushed, final) := splitWordsLoop maxChunkSize rest (w ++ " ")
      if wordChunk = "" then (pushed, final)
      else (jsTrim wordChunk :: pushed, final)

/-- Model of the outer sentence loop of `splitContent`. -/
def splitSentenceLoop (maxChunkSize : Nat) : List String → SplitState → SplitState
  | [], st => st
  | sentence :: rest, st =>
    let potential := st.currentChunk ++ sentence ++ " "
    if estimateTokenCount potential ≤ maxChunkSize then
      splitSentenceLoop maxChunkSize rest { st with currentChunk := potential }
    else
      let pushedCur := if st.currentChunk = "" then st.chunks
        else st.chunks ++ [jsTrim st.currentChunk]
      if maxChunkSize < estimateTokenCount sentence then
        let (wordPushed, wordChunk) := splitWordsLoop maxChunkSize (splitWords sentence) ""
        -- `if (wordChunk) currentChunk = wordChunk else currentChunk = ''`
        splitSentenceLoop maxChunkSize rest
          { chunks := pushedCur ++ wordPushed, currentChunk := wordChunk }
      else
        splitSentenceLoop maxChunkSize rest
          { chunks := pushedCur, currentChunk := sentence ++ " " }

/-- Model of `splitContent(content, maxChunkSize)`. -/
def splitContent (content : String) (maxChunkSize : Nat) : List String :=
  if content = "" then [""]
  else if estimateTokenCount content ≤ maxChunkSize then [content]
  else
    let st := splitSentenceLoop maxChunkSize (splitSentences content)
      { chunks := [], currentChunk := "" }
    if st.currentChunk = "" then st.chunks
    else st.chunks ++ [jsTrim st.currentChunk]

/-- Default `maxChunkSize` of `splitContent` (estimated tokens). -/
def defaultMaxChunkSize : Nat := 8000

/-! ## Airtable proxy handler (claim C8)

Source: `netlify/functions/airtable-proxy.js`.  The external Airtable REST
calls made through `axios` are modelled by an environment of oracles; each
oracle returns either the fetched JSON document or a thrown error message. -/

/-- JSON values (the payloads the proxy constructs or passes through). -/
inductive JVal where
  | null : JVal
  | str : String → JVal
  | num : ℚ → JVal
  | jbool : Bool → JVal
  | arr : List JVal → JVal
  | obj : List (String × JVal) → JVal

/-- Field lookup on a JSON object (first binding wins); `none` models
`undefined`. -/
def jGetField (v : JVal) (key : String) : Option JVal :=
  match v with
  | JVal.obj fields => (fields.find? (fun kv => kv.fst == key)).map Prod.snd
  | _ => none

/-- Whether a JSON body (as built by `JSON.stringify` of an object) carries
a top-level field of the given name. -/
def jHasField (v : JVal) (key : String) : Bool :=
  match v with
  | JVal.obj fields => fields.any (fun kv => kv.fst == key)
  | _ => false

/-- HTTP response of the proxy.  `body = none` models the empty-string
preflight body; otherwise the body is the `JSON.stringify` of the value. -/
structure ProxyResponse where
  statusCode : Nat
  headers : List (String × String)
  body : Option JVal

/-- The fixed CORS headers of `airtable-proxy.js`. -/
def corsHeaders : List (String × String) :=
  [("Access-Control-Allow-Origin", "https://portal.wearevery.com"),
   ("Access-Control-Allow-Headers", "Content-Type"),
   ("Access-Control-Allow-Methods", "POST, OPTIONS"),
   ("Access-Control-Allow-Credentials", "true")]

/-- Parsed request body of the proxy (fields destructured by the handler);
`none` models an absent (`undefined`) field. -/
structure ProxyRequest where
  operation : Option String
  recordId : Option String
  filterFormula : Option String
  fields : Option JVal

/-- Incoming event: HTTP method and the parse result of `event.body`
(`none` models a body on which `JSON.parse` throws). -/
structure ProxyEvent where
  httpMethod : String
  body : Option ProxyRequest

/-- Oracles for the three kinds of Airtable REST calls the proxy makes.
Each returns the response data or the message of a thrown error. -/
structure AirtableEnv where
  getContent : Option String → Except String JVal
  listAssistants : Option String → Except String JVal
  patchContent : Option String → Option JVal → Except String JVal

/-- Extraction of `contentResponse.data?.fields['AI Assistants'] || []` as
a list of record-id strings.  A missing `fields` object makes the
JavaScript expression throw (indexing `undefined`), caught by the local
`catch`; a present non-array value would make the later `.map` throw, which
the embedding reports the same way. -/
def linkedAssistantIds (data : JVal) : Except String (List String) :=
  match jGetField data "fields" with
  | none => Except.error "TypeError: Cannot read properties of undefined"
  | some f =>
    match jGetField f "AI Assistants" with
    | none => Except.ok []
    | some JVal.null => Except.ok []
    | some (JVal.arr l) =>
      Except.ok (l.map (fun v => match v with | JVal.str s => s | _ => ""))
    | some _ => Except.error "TypeError: linked assistant ids are not an array"

/-- Comma-joined `RECORD_ID()='id'` disjuncts of the filter formula. -/
def recordIdDisjuncts : List String → String
  | [] => ""
  | [id] => ("RECORD_ID()=") ++ aposS ++ id ++ aposS
  | id :: rest =>
    ("RECORD_ID()=") ++ aposS ++ id ++ aposS ++ (",") ++ recordIdDisjuncts rest

/-- Model of `getAssistants(recordId, headers)`. -/
def getAssistantsFn (recordId : Option String) (env : AirtableEnv) : ProxyResponse :=
  match env.getContent recordId with
  | Except.error msg =>
    { statusCode := 500, headers := corsHeaders,
      body := some (JVal.obj [("error", JVal.str ("Error fetching assistants")),
                              ("message", JVal.str msg)]) }
  | Except.ok data =>
    match linkedAssistantIds data with
    | Except.error msg =>
      { statusCode := 500, headers := corsHeaders,
        body := some (JVal.obj [("error", JVal.str ("Error fetching assistants")),
                                ("message", JVal.str msg)]) }
    | Except.ok [] =>
      { statusCode := 200, headers := corsHeaders,
        body := some (JVal.obj [("records", JVal.arr [])]) }
    | Except.ok ids =>
      let formula := ("AND(Active=TRUE(),OR(") ++ recordIdDisjuncts ids ++ ("))")
      match env.listAssistants (some formula) with
      | Except.ok adata =>
        { statusCode := 200, headers := corsHeaders, body := some adata }
      | Except.error msg =>
        { statusCode := 500, headers := corsHeaders,
          body := some (JVal.obj [("error", JVal.str ("Error fetching assistants")),
                                  ("message", JVal.str msg)]) }

/-- Model of `getContentRecord(recordId, headers)`. -/
def getContentRecordFn (recordId : Option String) (env : AirtableEnv) : ProxyResponse :=
  match env.getContent recordId with
  | Except.ok data => { statusCode := 200, headers := corsHeaders, body := some data }
  | Except.error msg =>
    { statusCode := 500, headers := corsHeaders,
      body := some (JVal.obj [("error", JVal.str ("Error fetching content record")),
                              ("message", JVal.str msg)]) }

/-- Model of `getAssistantsByFilter(filterFormula, headers)`. -/
def getAssistantsByFilterFn (filterFormula : Option String) (env : AirtableEnv) :
    ProxyResponse :=
  match env.listAssistants filterFormula with
  | Except.ok data => { statusCode := 200, headers := corsHeaders, body := some data }
  | Except.error msg =>
    { statusCode := 500, headers := corsHeaders,
      body := some (JVal.obj [("error", JVal.str ("Error fetching assistants by filter")),
                              ("message", JVal.str msg)]) }

/-- Model of `updateContent(recordId, fields, headers)`. -/
def updateContentFn (recordId : Option String) (fields : Option JVal)
    (env : AirtableEnv) : ProxyResponse :=
  match env.patchContent recordId fields with
  | Except.ok data => { statusCode := 200, headers := corsHeaders, body := some data }
  | Except.error msg =>
    { statusCode := 500, headers := corsHeaders,
      body := some (JVal.obj [("error", JVal.str ("Error updating content")),
                              ("message", JVal.str msg)]) }

/-- Model of `exports.handler` of `airtable-proxy.js`.  A falsy `operation`
(absent or empty string) takes the missing-parameter branch; an exception
from `JSON.parse` lands in the outer catch. -/
def proxyHandler (ev : ProxyEvent) (env : AirtableEnv) : ProxyResponse :=
  if ev.httpMethod = "OPTIONS" then
    { statusCode := 200, headers := corsHeaders, body := none }
  else
    match ev.body with
    | none =>
      { statusCode := 500, headers := corsHeaders,
        body := some (JVal.obj [("error", JVal.str ("Error processing your request")),
                                ("message", JVal.str ("Unexpected token in JSON"))]) }
    | some req =>
      match req.operation with
      | none =>
        { statusCode := 400, headers := corsHeaders,
          body := some (JVal.obj [("error", JVal.str ("Missing operation parameter"))]) }
      | some op =>
        if op = "" then
          { statusCode := 400, headers := corsHeaders,
            body := some (JVal.obj [("error", JVal.str ("Missing operation parameter"))]) }
        else if op = "test" then
          { statusCode := 200, headers := corsHeaders,
            body := some (JVal.obj [("message", JVal.str ("Connection test successful"))]) }
        else if op = "getAssistants" then getAssistantsFn req.recordId env
        else if op = "getContentRecord" then getContentRecordFn req.recordId env
        else if op = "getAssistantsByFilter" then getAssistantsByFilterFn req.filterFormula env
        else if op = "updateContent" then updateContentFn req.recordId req.fields env
        else
          { statusCode := 400, headers := corsHeaders,
            body := some (JVal.obj [("error", JVal.str (("Unsupported operation: ") ++ op))]) }

/-! ## Response parsing (`extractSuggestedContent`, claims C1 and C3)

Source: part_004.  Every regex of the parser is translated into an explicit
scanner.  The shared building block is a matcher `List Char → Option (Nat ×
List Char)` giving the length of the match starting at the head of the
suffix and its replacement; `globalRegexReplace` then models a global
`String.prototype.replace`. -/

/-- Run a matcher left to right, non-overlapping, replacing every match;
fuel decreases on every emitted character or match (a match always consumes
at least one character; a zero-length match is skipped defensively). -/
def globalRegexReplace (m : List Char → Option (Nat × List Char)) :
    List Char → Nat → List Char
  | l, 0 => l
  | [], _ + 1 => []
  | c :: rest, fuel + 1 =>
    match m (c :: rest) with
    | some (len, rep) =>
      if len = 0 then c :: globalRegexReplace m rest fuel
      else rep ++ globalRegexReplace m ((c :: rest).drop len) fuel
    | none => c :: globalRegexReplace m rest fuel

/-- String-level wrapper of `globalRegexReplace`. -/
def grepl (m : List Char → Option (Nat × List Char)) (s : String) : String :=
  (globalRegexReplace m s.toList (s.toList.length + 1)).asString

/-- Lowercase ASCII letter test (the `[a-z]` class). -/
def isLowerAZ (c : Char) : Bool := 'a' ≤ c && c ≤ 'z'

/-- Uppercase ASCII letter test (the `[A-Z]` class). -/
def isUpperAZ (c : Char) : Bool := 'A' ≤ c && c ≤ 'Z'

/-- ASCII letter test (the `[A-Za-z]` class). -/
def isAlphaAZ (c : Char) : Bool := isLowerAZ c || isUpperAZ c

/-- Matcher for `/>\s+</` (replacement `><`). -/
def wsBetweenTagsAt (l : List Char) : Option (Nat × List Char) :=
  match l with
  | '>' :: rest =>
    let ws := rest.takeWhile jsIsWs
    if ws.length = 0 then none
    else match rest.drop ws.length with
      | '<' :: _ => some (1 + ws.length + 1, ['>', '<'])
      | _ => none
  | _ => none

/-- Matcher for `/<p>\s*<\/p>/` (replacement empty). -/
def emptyParaAt (l : List Char) : Option (Nat × List Char) :=
  if litAt ("<p>".toList) l then
    let rest := l.drop 3
    let ws := rest.takeWhile jsIsWs
    if litAt ("</p>".toList) (rest.drop ws.length) then some (3 + ws.length + 4, [])
    else none
  else none

/-- Digit between 1 and 6 (the `[1-6]` class). -/
def isDigit16 (c : Char) : Bool := '1' ≤ c && c ≤ '6'

/-- Matcher for `/<h[1-6]><br><\/h[1-6]>/i` (replacement empty); the two
digits are independent. -/
def emptyHeadingAt (l : List Char) : Option (Nat × List Char) :=
  if litAtCI ("<h".toList) l then
    match l.drop 2 with
    | d1 :: rest =>
      if isDigit16 d1 && litAtCI ("><br></h".toList) rest then
        match rest.drop 8 with
        | d2 :: '>' :: _ => if isDigit16 d2 then some (13, []) else none
        | _ => none
      else none
    | _ => none
  else none

/-- Matcher for `/<p><br><\/p>/i` (replacement empty). -/
def paraBreakAt (l : List Char) : Option (Nat × List Char) :=
  if litAtCI ("<p><br></p>".toList) l then some (11, []) else none

/-- Length of one `<br\s*\/?>` tag at the head of `l` (case-insensitive),
or `none`. -/
def brTagAt (l : List Char) : Option Nat :=
  if litAtCI ("<br".toList) l then
    let rest := l.drop 3
    let ws := rest.takeWhile jsIsWs
    match rest.drop ws.length with
    | '/' :: '>' :: _ => some (3 + ws.length + 2)
    | '>' :: _ => some (3 + ws.length + 1)
    | _ => none
  else none

/-- Matcher for `/<br\s*\/?>\s*<br\s*\/?>/i` (replacement `<br>`). -/
def doubleBrAt (l : List Char) : Option (Nat × List Char) :=
  match brTagAt l with
  | none => none
  | some n1 =>
    let rest := l.drop n1
    let ws := rest.takeWhile jsIsWs
    match brTagAt (rest.drop ws.length) with
    | none => none
    | some n2 => some (n1 + ws.length + n2, "<br>".toList)

/-- Matcher for `/\s{2,}/` (replacement a single space). -/
def multiWsAt (l : List Char) : Option (Nat × List Char) :=
  let ws := l.takeWhile jsIsWs
  if 2 ≤ ws.length then some (ws.length, [' ']) else none

/-- Matcher for `/<\/h[1-6]><\/h[1-6]>/` (replacement `</h1>`, case
sensitive; the two digits are independent). -/
def doubleCloseHeadingAt (l : List Char) : Option (Nat × List Char) :=
  if litAt ("</h".toList) l then
    match l.drop 3 with
    | d1 :: rest =>
      if isDigit16 d1 && litAt ("></h".toList) rest then
        match rest.drop 4 with
        | d2 :: '>' :: _ => if isDigit16 d2 then some (10, "</h1>".toList) else none
        | _ => none
      else none
    | _ => none
  else none

/-- First occurrence index of the literal `lit` in `l` such that the
prefix before it is free of line feeds (the lazy `(.*?)` of a dotall-free
regex); `none` when no such occurrence exists. -/
def findLitNoNl (lit l : List Char) : Option Nat :=
  match findLit lit l with
  | none => none
  | some j => if (l.take j).contains '\n' then none else some j

/-- Matcher for `/<p><h([1-6])>(.*?)<\/h\1><\/p>/` (replacement
`<h$1>$2</h$1>`). -/
def nestedHeadingAt (l : List Char) : Option (Nat × List Char) :=
  if litAt ("<p><h".toList) l then
    match l.drop 5 with
    | d :: '>' :: tail =>
      if isDigit16 d then
        let closer := ("</h".toList) ++ [d] ++ ("></p>".toList)
        match findLitNoNl closer tail with
        | some j =>
          some (7 + j + 9,
            ("<h".toList) ++ [d] ++ ['>'] ++ tail.take j ++ ("</h".toList) ++ [d] ++ ['>'])
        | none => none
      else none
    | _ => none
  else none

/-- Matcher for `/<!--[\s\S]*?-->/` (replacement empty). -/
def htmlCommentAt (l : List Char) : Option (Nat × List Char) :=
  if litAt ("<!--".toList) l then
    match findLit ("-->".toList) (l.drop 4) with
    | some j => some (4 + j + 3, [])
    | none => none
  else none

/-- Full-match length of `/<p[^>]*>(.*?)<\/p>/` at the head of `l`. -/
def paraMatchAt (l : List Char) : Option Nat :=
  if litAt ("<p".toList) l then
    let attrs := (l.drop 2).takeWhile (fun c => c ≠ '>')
    match l.drop (2 + attrs.length) with
    | '>' :: tail =>
      match findLitNoNl ("</p>".toList) tail with
      | some j => some (2 + attrs.length + 1 + j + 4)
      | none => none
    | _ => none
  else none

/-- Collect all (left-to-right, non-overlapping) full matches of a
length-matcher. -/
def collectMatches (m : List Char → Option Nat) : List Char → Nat → List String
  | _, 0 => []
  | l, fuel + 1 =>
    match firstSufIdx (fun s => (m s).isSome) l 0 with
    | none => []
    | some i =>
      let suf := l.drop i
      match m suf with
      | some len =>
        if len = 0 then []
        else (suf.take len).asString :: collectMatches m (suf.drop len) fuel
      | none => []

/-- The paragraphs of `cleaned.match(/<p[^>]*>(.*?)<\/p>/g) || []`. -/
def collectParagraphs (s : String) : List String :=
  collectMatches paraMatchAt s.toList (s.toList.length + 1)

/-- Matcher for `/<[^>]*>/` (replacement empty): an HTML tag. -/
def tagAt (l : List Char) : Option (Nat × List Char) :=
  match l with
  | '<' :: rest =>
    let inner := rest.takeWhile (fun c => c ≠ '>')
    match rest.drop inner.length with
    | '>' :: _ => some (1 + inner.length + 1, [])
    | _ => none
  | _ => none

/-- Model of `content.replace(/<[^>]*>/g, '')`. -/
def stripTags (s : String) : String := grepl tagAt s

/-- Last occurrence index of a literal (model of
`String.prototype.lastIndexOf`). -/
def lastLitIdx (lit l : List Char) : Option Nat :=
  match firstSufIdx (litAt lit.reverse) l.reverse 0 with
  | none => none
  | some k => some (l.length - k - lit.length)

/-- Replace the first occurrence of a literal (model of a non-global
`String.prototype.replace` with string pattern). -/
def jsReplaceFirst (s pat rep : String) : String :=
  match findLit pat.toList s.toList with
  | none => s
  | some i =>
    ((s.toList.take i) ++ rep.toList ++ (s.toList.drop (i + pat.toList.length))).asString

/-- Step 3 of `sanitizeContent` for a single phrase length: the last
`pl` words of the paragraph text, re-joined with single spaces, searched in
the re-joined earlier words. -/
def dedupPhrase (content : String) (words : List String) (pl : Nat) : Option String :=
  let lastPhrase := String.intercalate " " (words.drop (words.length - pl))
  let earlier := String.intercalate " " (words.take (words.length - pl))
  if jsIncludes earlier lastPhrase then
    some (match lastLitIdx lastPhrase.toList content.toList with
      | some i => jsTake content i
      | none => "")
  else none

/-- Try phrase lengths 3 to 7 in order (the `for (phraseLength ...)` loop
with its `break`). -/
def dedupFirst (content : String) (words : List String) : List Nat → Option String
  | [] => none
  | pl :: rest =>
    match dedupPhrase content words pl with
    | some r => some r
    | none => dedupFirst content words rest

/-- Step 3 of `sanitizeContent` for one paragraph of the original match
list: strip tags, split into words, and when a trailing phrase of 3 to 7
words already occurs earlier, truncate the paragraph at the last occurrence
of that phrase and substitute it (first occurrence) into the accumulator. -/
def dedupStep (cleaned p : String) : String :=
  let content := stripTags p
  let words := jsSplitChar content ' '
  if 10 < words.length then
    match dedupFirst content words [3, 4, 5, 6, 7] with
    | some cleanedContent =>
      jsReplaceFirst cleaned p (("<p>") ++ cleanedContent ++ ("</p>"))
    | none => cleaned
  else cleaned

/-- Matcher for `/<p>([a-z] [a-z]+\.[a-z]+\.)<\/p>/` (replacement empty). -/
def fragOneLetterAt (l : List Char) : Option (Nat × List Char) :=
  if litAt ("<p>".toList) l then
    match l.drop 3 with
    | c :: ' ' :: rest =>
      if isLowerAZ c then
        let r1 := rest.takeWhile isLowerAZ
        if r1.length = 0 then none else
        match rest.drop r1.length with
        | '.' :: rest2 =>
          let r2 := rest2.takeWhile isLowerAZ
          if r2.length = 0 then none else
          match rest2.drop r2.length with
          | '.' :: rest3 =>
            if litAt ("</p>".toList) rest3 then
              some (3 + 2 + r1.length + 1 + r2.length + 1 + 4, [])
            else none
          | _ => none
        | _ => none
      else none
    | _ => none
  else none

/-- Matcher for `/<p>([a-z]+\.[a-z]+\.)<\/p>/` (replacement empty). -/
def fragTwoDotsAt (l : List Char) : Option (Nat × List Char) :=
  if litAt ("<p>".toList) l then
    let rest := l.drop 3
    let r1 := rest.takeWhile isLowerAZ
    if r1.length = 0 then none else
    match rest.drop r1.length with
    | '.' :: rest2 =>
      let r2 := rest2.takeWhile isLowerAZ
      if r2.length = 0 then none else
      match rest2.drop r2.length with
      | '.' :: rest3 =>
        if litAt ("</p>".toList) rest3 then
          some (3 + r1.length + 1 + r2.length + 1 + 4, [])
        else none
      | _ => none
    | _ => none
  else none

/-- Matcher for `/<p>([a-z]{1,3})<\/p>/` (replacement empty). -/
def fragShortAt (l : List Char) : Option (Nat × List Char) :=
  if litAt ("<p>".toList) l then
    let rest := l.drop 3
    let run := rest.takeWhile isLowerAZ
    if 1 ≤ run.length && run.length ≤ 3 && litAt ("</p>".toList) (rest.drop run.length) then
      some (3 + run.length + 4, [])
    else none
  else none

/-- Model of `sanitizeContent(html)` (part_004): whitespace and empty-element
cleanup, malformed-tag fixes, repeated-trailing-phrase removal per paragraph,
and stray-fragment removal. -/
def sanitizeContent (html : String) : String :=
  if html = "" then "" else
  -- Step 1: basic cleanup
  let c := grepl wsBetweenTagsAt html
  let c := grepl emptyParaAt c
  let c := grepl emptyHeadingAt c
  let c := grepl paraBreakAt c
  let c := grepl doubleBrAt c
  let c := grepl multiWsAt c
  -- Step 2: malformed tags and structure
  let c := jsReplaceAll c ("</p></p>") ("</p>")
  let c := grepl doubleCloseHeadingAt c
  let c := grepl nestedHeadingAt c
  let c := grepl htmlCommentAt c
  -- Step 3: duplicate trailing phrases per paragraph
  let c := (collectParagraphs c).foldl dedupStep c
  -- Step 4: stray fragments
  let c := grepl fragOneLetterAt c
  let c := grepl fragTwoDotsAt c
  let c := grepl fragShortAt c
  c

/-- Model of `cleanCodeBlockMarkers(content)`. -/
def cleanCodeBlockMarkers (s : String) : String :=
  jsReplaceAll (jsReplaceAll (jsReplaceAll s ("```html\n") ("")) ("```\n") ("")) ("```") ("")

/-- Heading conversion of one line, modelling the three chained global
replaces `^# `, `^## `, `^### ` of `convertMarkdownToHtml` (at most one of
the three can fire on a given line). -/
def mdHeadingLine (line : String) : String :=
  if litAt ("# ".toList) line.toList then ("<h1>") ++ jsDrop line 2 ++ ("</h1>")
  else if litAt ("## ".toList) line.toList then ("<h2>") ++ jsDrop line 3 ++ ("</h2>")
  else if litAt ("### ".toList) line.toList then ("<h3>") ++ jsDrop line 4 ++ ("</h3>")
  else line

/-- Does the line start with `<h[1-6]>` (the negative lookahead of the
paragraph-wrapping replace)? -/
def startsWithHeadingTag (line : String) : Bool :=
  match line.toList with
  | '<' :: 'h' :: d :: '>' :: _ => isDigit16 d
  | _ => false

/-- Paragraph wrapping of one line: blank lines become empty, heading lines
stay, other lines are wrapped in `<p>...</p>`. -/
def mdParaLine (line : String) : String :=
  if startsWithHeadingTag line then line
  else if jsTrim line = "" then ""
  else ("<p>") ++ line ++ ("</p>")

/-- Model of `convertMarkdownToHtml(markdown)`: per-line heading conversion,
per-line paragraph wrapping (the `gm` anchors make both replaces
line-local), then removal of literal empty paragraphs. -/
def convertMarkdownToHtml (markdown : String) : String :=
  if markdown = "" then "" else
  let lines := jsSplitChar markdown '\n'
  let lines := lines.map mdHeadingLine
  let lines := lines.map mdParaLine
  jsReplaceAll (String.intercalate "\n" lines) ("<p></p>") ("")

/-- Markdown heuristic shared by several branches:
`s.startsWith('#') || (s.includes('#') && !s.includes('<'))`. -/
def looksLikeMarkdown (s : String) : Bool :=
  litAt ("#".toList) s.toList || (jsIncludesChar s '#' && !(jsIncludesChar s '<'))

/-- Plain-text heuristic shared by several branches:
`!s.includes('<') && !s.includes('>')`. -/
def anglesFree (s : String) : Bool :=
  !(jsIncludesChar s '<') && !(jsIncludesChar s '>')

/-- Shared tail processing of a raw extracted fragment: trim, strip code
fences, convert markdown or wrap bare text in a paragraph, then sanitize
(the fence branch and the backticked sub-branch of the Suggested Content
branch run exactly this pipeline). -/
def processFenceContent (raw : String) : String :=
  let s := cleanCodeBlockMarkers (jsTrim raw)
  let s := if looksLikeMarkdown s then convertMarkdownToHtml s
    else if anglesFree s then ("<p>") ++ s ++ ("</p>") else s
  sanitizeContent s

/-- Scanner for the first match of `/\n\s*([A-Z][A-Za-z\s]+:)/` at the head
of a suffix. -/
def nextHeadingAt (l : List Char) : Bool :=
  match l with
  | '\n' :: rest =>
    let ws := rest.takeWhile jsIsWs
    match rest.drop ws.length with
    | c :: rest2 =>
      if isUpperAZ c then
        let run := rest2.takeWhile (fun x => isAlphaAZ x || jsIsWs x)
        if run.length = 0 then false
        else match rest2.drop run.length with
          | ':' :: _ => true
          | _ => false
      else false
    | [] => false
  | _ => false

/-- Index of the first `/\n\s*([A-Z][A-Za-z\s]+:)/` match
(`nextHeadingMatch.index`). -/
def nextHeadingIdx (s : String) : Option Nat :=
  firstSufIdx nextHeadingAt s.toList 0

/-- All inner fragments of `/```([\s\S]*?)```/g` matches, in order. -/
def fenceInnersGo : List Char → Nat → List String
  | _, 0 => []
  | l, fuel + 1 =>
    match findLit ("```".toList) l with
    | none => []
    | some i =>
      let after := l.drop (i + 3)
      match findLit ("```".toList) after with
      | none => []
      | some j => (after.take j).asString :: fenceInnersGo (after.drop (j + 3)) fuel

/-- Model of `[...responseMessage.matchAll(/```([\s\S]*?)```/g)]`, keeping
only the captured inner text of each match. -/
def fenceInners (s : String) : List String :=
  fenceInnersGo s.toList (s.toList.length + 1)

/-- First case-insensitive `OPEN([\s\S]*?)CLOSE` match: the lazy pair
resolves to the first occurrence of the opening literal followed by the
first occurrence of the closing literal after it (a later opening cannot
succeed when the first one fails, since any closing occurrence after it
would also serve the first).  Literals are passed lowercased. -/
def matchBlockCI (m openLit closeLit : String) : Option String :=
  let l := m.toList
  match findLitCI openLit.toList l with
  | none => none
  | some i =>
    let after := l.drop (i + openLit.toList.length)
    match findLitCI closeLit.toList after with
    | some j => some ((after.take j).asString)
    | none => none

/-- Scanner for `Option\s+(\d+)` followed by optional whitespace (`spc`)
and a colon, at the head of `l`; `ci` selects case-insensitive matching of
the word `Option`.  Returns the match length and the digit string. -/
def optionHeaderAt (ci spc : Bool) (l : List Char) : Option (Nat × String) :=
  let okWord := if ci then litAtCI ("option".toList) l else litAt ("Option".toList) l
  if okWord then
    let rest := l.drop 6
    let ws := rest.takeWhile jsIsWs
    if ws.length = 0 then none else
    let rest2 := rest.drop ws.length
    let ds := rest2.takeWhile Char.isDigit
    if ds.length = 0 then none else
    let rest3 := rest2.drop ds.length
    let ws2 := if spc then rest3.takeWhile jsIsWs else []
    match rest3.drop ws2.length with
    | ':' :: _ => some (6 + ws.length + ds.length + ws2.length + 1, ds.asString)
    | _ => none
  else none

/-- First index of a case-sensitive `/Option\s+\d+\s*:/` match (the third
branch of `extractSuggestedContent`). -/
def findOptionHeaderIdx (s : String) : Option Nat :=
  firstSufIdx (fun suf => (optionHeaderAt false true suf).isSome) s.toList 0

/-- The per-option div emitted by both option-formatting sites (template
literal of part_004, kept verbatim including its indentation). -/
def optionDivTemplate (num content : String) : String :=
  ("<div class=\"suggestion-option\">\n            <h4>Option ") ++ num ++
    (":</h4>\n            <div class=\"option-content\">") ++ content ++
    ("</div>\n          </div>\n")

/-- Replacement loop of
`optionsContent.replace(/Option\s+(\d+):\s*([\s\S]*?)(?=Option\s+\d+:|$)/gi, ...)`:
unmatched text is preserved, each match consumes the header, the greedy
whitespace after the colon and the lazy content up to the next
(case-insensitive) header or the end of the string; the replacement embeds
`sanitizeContent(content.trim())`. -/
def optionsReplaceGo : List Char → Nat → List Char
  | l, 0 => l
  | l, fuel + 1 =>
    match firstSufIdx (fun suf => (optionHeaderAt true false suf).isSome) l 0 with
    | none => l
    | some i =>
      let pre := l.take i
      let suf := l.drop i
      match optionHeaderAt true false suf with
      | none => l
      | some (hlen, num) =>
        let afterColon := suf.drop hlen
        let ws := afterColon.takeWhile jsIsWs
        let contentTail := afterColon.drop ws.length
        match firstSufIdx (fun s => (optionHeaderAt true false s).isSome) contentTail 0 with
        | some q =>
          pre ++
            (optionDivTemplate num
              (sanitizeContent (jsTrim (contentTail.take q).asString))).toList ++
            optionsReplaceGo (contentTail.drop q) fuel
        | none =>
          pre ++
            (optionDivTemplate num
              (sanitizeContent (jsTrim contentTail.asString))).toList

/-- The `[OPTIONS]` branch result: wrap the replaced options content in the
`suggestion-options` div. -/
def formatOptionsBlock (inner : String) : String :=
  ("<div class=\"suggestion-options\">\n") ++
    (optionsReplaceGo inner.toList (inner.toList.length + 1)).asString ++ ("</div>")

/-- The lookahead `(?=(?:\s*Option\s+\d+\s*:)|$)` of the legacy option
loop: optional whitespace followed by a case-sensitive header. -/
def legacyLookaheadAt (l : List Char) : Bool :=
  (optionHeaderAt false true (l.drop ((l.takeWhile jsIsWs).length))).isSome

/-- Matches of the legacy loop
`/Option\s+(\d+)\s*:([\s\S]*?)(?=(?:\s*Option\s+\d+\s*:)|$)/g` over the
options content: `(number, raw content)` pairs in order. -/
def legacyOptionsGo : List Char → Nat → List (String × String)
  | _, 0 => []
  | l, fuel + 1 =>
    match firstSufIdx (fun suf => (optionHeaderAt false true suf).isSome) l 0 with
    | none => []
    | some i =>
      let suf := l.drop i
      match optionHeaderAt false true suf with
      | none => []
      | some (hlen, num) =>
        let contentTail := suf.drop hlen
        match firstSufIdx legacyLookaheadAt contentTail 0 with
        | some q => (num, (contentTail.take q).asString) :: legacyOptionsGo (contentTail.drop q) fuel
        | none => [(num, contentTail.asString)]

/-- Per-option processing of the legacy loop body: trim, strip code
markers, convert markdown or wrap bare text, and emit the option div. -/
def legacyOptionDiv (opt : String × String) : String :=
  let content := cleanCodeBlockMarkers (jsTrim opt.snd)
  let content := if looksLikeMarkdown content then convertMarkdownToHtml content
    else if anglesFree content then ("<p>") ++ content ++ ("</p>") else content
  optionDivTemplate opt.fst content

/-- The legacy `Option N:` formatting: `none` corresponds to
`foundOptions = false` (the code then falls through to the next branch). -/
def legacyFormatOptions (tail : String) : Option String :=
  match legacyOptionsGo tail.toList (tail.toList.length + 1) with
  | [] => none
  | ms =>
    some (("<div class=\"suggestion-options\">\n") ++
      String.join (ms.map legacyOptionDiv) ++ ("</div>"))

/-- The segment `parts[1]` of `responseMessage.split('Suggested Content:')`:
the text between the end of the first occurrence of the heading and the
next occurrence (or the end of the string). -/
def suggestedSegment (m : String) : String :=
  let lit := ("Suggested Content:").toList
  match findLit lit m.toList with
  | none => ""
  | some i =>
    let after := m.toList.drop (i + lit.length)
    match findLit lit after with
    | some j => (after.take j).asString
    | none => after.asString

/-- Processing of the `Suggested Content:` branch on `parts[1]`. -/
def processSuggested (seg : String) : String :=
  let content := jsTrim seg
  match (fenceInners content).head? with
  | some inner => processFenceContent inner
  | none =>
    if jsIncludesChar content '<' && jsIncludesChar content '>' then
      -- direct HTML content: cut at the first tag, strip markers, cut at the
      -- next `Heading:` line, sanitize
      let c := match firstSufIdx (fun s => s.head? = some '<') content.toList 0 with
        | some h => jsDrop content h
        | none => content
      let c := cleanCodeBlockMarkers c
      let c := match nextHeadingIdx c with
        | some i => if i ≠ 0 then jsTrim (jsTake c i) else c
        | none => c
      sanitizeContent c
    else
      -- raw content: cut at the next `Heading:` line, strip markers,
      -- convert markdown or wrap, sanitize
      let c := match nextHeadingIdx content with
        | some i => if i ≠ 0 then jsTrim (jsTake content i) else content
        | none => content
      let c := cleanCodeBlockMarkers c
      let c := if looksLikeMarkdown c then convertMarkdownToHtml c
        else if anglesFree c then ("<p>") ++ c ++ ("</p>") else c
      sanitizeContent c

/-- Processing of the remaining text after the first `[/COMMENT]` (already
trimmed): sanitize, then wrap in a paragraph when no angle bracket
survives. -/
def processCommentTail (t : String) : String :=
  let r := sanitizeContent t
  if anglesFree r then ("<p>") ++ r ++ ("</p>") else r

/-- Branches four to six of `extractSuggestedContent` (Suggested Content
heading, backtick fences, text after a `[COMMENT]` block); also reached by
the fall-through of the `Option N:` branch. -/
def extractPhase4 (m : String) : Option String :=
  if jsIncludes m ("Suggested Content:") then some (processSuggested (suggestedSegment m))
  else
    match (fenceInners m).getLast? with
    | some inner => some (processFenceContent inner)
    | none =>
      if jsIncludes m ("[COMMENT]") && jsIncludes m ("[/COMMENT]") then
        match findLit ("[/COMMENT]".toList) m.toList with
        | some cidx =>
          let remaining := jsTrim (jsDrop m (cidx + 10))
          if remaining = "" then none else some (processCommentTail remaining)
        | none => none
      else none

/-- Model of `extractSuggestedContent(responseMessage)` (part_004): the
ordered fallback chain over the delimiter styles. -/
def extractSuggestedContent (m : String) : Option String :=
  if m = "" then none else
  match matchBlockCI m ("[options]") ("[/options]") with
  | some inner => some (formatOptionsBlock inner)
  | none =>
  match matchBlockCI m ("[rewrite]") ("[/rewrite]") with
  | some inner => some (sanitizeContent (jsTrim inner))
  | none =>
  match findOptionHeaderIdx m with
  | some i =>
    let tail := jsDrop m i
    if jsIncludesChar tail '<' && jsIncludesChar tail '>' then
      some (sanitizeContent tail)
    else
      match legacyFormatOptions tail with
      | some s => some s
      | none => extractPhase4 m
  | none => extractPhase4 m

/-- None of the seven `changePatterns` groups of the simplified handler
matches the (lowercased) request. -/
def noChangePatterns (u : String) : Bool :=
  let request := jsToLower u
  !(patternGroupMatches headlinePatterns request) &&
  !(patternGroupMatches subtitlePatterns request) &&
  !(patternGroupMatches expandPatterns request) &&
  !(patternGroupMatches shortenPatterns request) &&
  !(patternGroupMatches rewritePatterns request) &&
  !(patternGroupMatches listsPatterns request) &&
  !(patternGroupMatches paragraphPatterns request)

/-- The AI response contains none of the substrings probed by the fallback
of `detectChangeType`. -/
def noResponseProbes (a : String) : Bool :=
  !(jsIncludes a ("headline")) && !(jsIncludes a ("title")) &&
  !(jsIncludes a ("subtitle")) && !(jsIncludes a ("list"))

/-- Concrete Airtable environment used to exercise the proxy: the content
record exists but links no assistants. -/
def emptyLinksEnv : AirtableEnv :=
  { getContent := fun _ => Except.ok (JVal.obj [("fields", JVal.obj [])]),
    listAssistants := fun _ => Except.ok JVal.null,
    patchContent := fun _ _ => Except.ok JVal.null }

/-! ## Helper lemmas -/

/-- Dropping a prefix cannot lengthen a list. -/
theorem dropWhile_length_le (p : Char → Bool) (l : List Char) :
    (l.dropWhile p).length ≤ l.length := by
  induction l with
  | nil => simp
  | cons c rest ih =>
    by_cases h : p c
    · rw [List.dropWhile_cons_of_pos h]; simp only [List.length_cons]; omega
    · rw [List.dropWhile_cons_of_neg (by simp [h])]

/-- Trimming cannot lengthen a character list. -/
theorem trimChars_length_le (l : List Char) : (trimChars l).length ≤ l.length := by
  unfold trimChars
  calc ((((l.dropWhile jsIsWs).reverse).dropWhile jsIsWs).reverse).length
      = (((l.dropWhile jsIsWs).reverse).dropWhile jsIsWs).length := List.length_reverse _
    _ ≤ ((l.dropWhile jsIsWs).reverse).length := dropWhile_length_le _ _
    _ = (l.dropWhile jsIsWs).length := List.length_reverse _
    _ ≤ l.length := dropWhile_length_le _ _

/-- The token estimate is monotone in the character count. -/
theorem estimateTokenCount_mono {s t : String}
    (h : s.toList.length ≤ t.toList.length) :
    estimateTokenCount s ≤ estimateTokenCount t := by
  unfold estimateTokenCount
  exact Nat.div_le_div_right (by omega)

/-- Trimming cannot raise the token estimate. -/
theorem estimateTokenCount_trim_le (s : String) :
    estimateTokenCount (jsTrim s) ≤ estimateTokenCount s := by
  apply estimateTokenCount_mono
  show (List.asString (trimChars s.toList)).toList.length ≤ _
  exact trimChars_length_le s.toList

/-- Appending a space does not change the trimmed string. -/
theorem jsTrim_append_space (s : String) : jsTrim (s ++ " ") = jsTrim s := by
  unfold jsTrim trimChars
  have hd : (s ++ " ").toList = s.toList ++ [' '] := by
    show (s ++ " ").data = s.data ++ [' ']
    simp [String.data_append]
  rw [hd]
  have key : ∀ l : List Char,
      (l ++ [' ']).dropWhile jsIsWs = if (l.dropWhile jsIsWs).isEmpty then []
        else l.dropWhile jsIsWs ++ [' '] := by
    intro l
    induction l with
    | nil => simp [List.dropWhile, jsIsWs]
    | cons c rest ih =>
      by_cases h : jsIsWs c
      · simp only [List.cons_append, List.dropWhile_cons_of_pos h, ih]
      · have hc : jsIsWs c = false := by simpa using h
        rw [List.cons_append, List.dropWhile_cons_of_neg (by simp [hc]),
          List.dropWhile_cons_of_neg (by simp [hc])]
        simp
  rw [key]
  by_cases he : (s.toList.dropWhile jsIsWs).isEmpty
  · rw [if_pos he]
    rw [List.isEmpty_iff] at he
    rw [he]
  · rw [if_neg he]
    rw [List.reverse_append]
    simp only [List.reverse_cons, List.reverse_nil, List.nil_append, List.singleton_append]
    rw [List.dropWhile_cons_of_pos (by simp [jsIsWs])]

/-- A successful `firstSufIdx` search from index 0 points at a suffix
satisfying the predicate. -/
theorem firstSufIdx_spec (p : List Char → Bool) :
    ∀ (l : List Char) (n i : Nat), firstSufIdx p l n = some i →
      n ≤ i ∧ p (l.drop (i - n)) = true := by
  intro l
  induction l with
  | nil =>
    intro n i h
    unfold firstSufIdx at h
    by_cases hp : p []
    · simp only [if_pos hp, Option.some.injEq] at h
      subst h
      simpa using hp
    · simp [if_neg hp] at h
  | cons c rest ih =>
    intro n i h
    unfold firstSufIdx at h
    by_cases hp : p (c :: rest)
    · simp only [if_pos hp, Option.some.injEq] at h
      subst h
      simpa using hp
    · simp only [if_neg hp] at h
      obtain ⟨h1, h2⟩ := ih (n + 1) i h
      constructor
      · omega
      · have : i - n = (i - (n + 1)) + 1 := by omega
        rw [this, List.drop_succ_cons] at *
        exact h2

/-- A suffix satisfying the predicate at the start is found immediately. -/
theorem firstSufIdx_here {p : List Char → Bool} {l : List Char}
    (h : p l = true) (n : Nat) : firstSufIdx p l n = some n := by
  cases l with
  | nil => unfold firstSufIdx; rw [if_pos h]
  | cons c rest => unfold firstSufIdx; rw [if_pos h]

/-- The retry loop invokes the operation at most `fuel` times. -/
theorem retryGo_calls_le {α : Type} (op : Nat → Except String α) :
    ∀ (fuel attempt delay : Nat) (le : Option String),
      (retryGo op attempt fuel delay le).calls ≤ fuel := by
  intro fuel
  induction fuel with
  | zero => intro a d le; unfold retryGo; simp
  | succ f ih =>
    intro a d le
    unfold retryGo
    cases hop : op a with
    | ok v => simp
    | error e =>
      dsimp only
      by_cases htok : isTokenLimitError e = true
      · rw [if_pos htok]; simp
      · rw [if_neg htok]
        by_cases hf : f = 0
        · rw [if_pos hf]; simp
        · rw [if_neg hf]
          dsimp only
          have := ih (a + 1)
            (if isOverloadedError e || isTimeoutError e then d * 2 else d) (some e)
          omega

/-- After an attempt whose error is classified token-limit, the loop never
invokes the operation again: the invocation count is bounded by that
attempt index plus one. -/
theorem retryGo_token_stops {α : Type} (op : Nat → Except String α)
    (j : Nat) (e : String) (hj : op j = Except.error e)
    (ht : isTokenLimitError e = true) :
    ∀ (fuel a d : Nat) (le : Option String), a ≤ j →
      (retryGo op a fuel d le).calls ≤ j + 1 - a := by
  intro fuel
  induction fuel with
  | zero => intro a d le ha; unfold retryGo; simp
  | succ f ih =>
    intro a d le ha
    unfold retryGo
    cases hop : op a with
    | ok v => dsimp only; omega
    | error e2 =>
      dsimp only
      by_cases htok : isTokenLimitError e2 = true
      · rw [if_pos htok]; dsimp only; omega
      · rw [if_neg htok]
        have hne : a ≠ j := by
          intro hEq
          subst hEq
          rw [hop] at hj
          injection hj with h
          subst h
          exact htok ht
        by_cases hf : f = 0
        · rw [if_pos hf]; dsimp only; omega
        · rw [if_neg hf]
          dsimp only
          have := ih (a + 1)
            (if isOverloadedError e2 || isTimeoutError e2 then d * 2 else d) (some e2)
            (by omega)
          omega

/-- When every attempt in range fails with a timeout-classified (and not
token-limit-classified) error, the loop runs all its attempts and sleeps
the doubling backoff sequence. -/
theorem retryGo_all_timeout {α : Type} (op : Nat → Except String α) :
    ∀ (fuel a d : Nat) (le : Option String),
      (∀ k, k < fuel → ∃ e, op (a + k) = Except.error e ∧
        isTimeoutError e = true ∧ isTokenLimitError e = false) →
      (retryGo op a fuel d le).calls = fuel ∧
      (retryGo op a fuel d le).delays =
        (List.range (fuel - 1)).map (fun i => d * 2 ^ (i + 1)) := by
  intro fuel
  induction fuel with
  | zero => intro a d le _; unfold retryGo; simp
  | succ f ih =>
    intro a d le hall
    obtain ⟨e, hope, hto, hntok⟩ := hall 0 (by omega)
    rw [Nat.add_zero] at hope
    unfold retryGo
    rw [hope]
    dsimp only
    rw [if_neg (by simp [hntok])]
    by_cases hf : f = 0
    · subst hf
      rw [if_pos rfl]
      simp
    · rw [if_neg hf]
      dsimp only
      rw [show (isOverloadedError e || isTimeoutError e) = true by simp [hto]]
      rw [if_pos rfl]
      obtain ⟨g, rfl⟩ : ∃ g, f = g + 1 := ⟨f - 1, by omega⟩
      have hrest := ih (a + 1) (d * 2) (some e) (by
        intro k hk
        have := hall (k + 1) (by omega)
        rwa [show a + (k + 1) = a + 1 + k by omega] at this)
      refine ⟨by rw [hrest.1], ?_⟩
      rw [hrest.2]
      show d * 2 :: _ = (List.range (g + 1)).map (fun i => d * 2 ^ (i + 1))
      rw [List.range_succ_eq_map, List.map_cons, List.map_map]
      have h0 : d * 2 ^ (0 + 1) = d * 2 := by ring
      rw [h0]
      congr 1
      · simp only [Nat.add_sub_cancel]
        apply List.map_congr_left
        intro i _
        show d * 2 * 2 ^ (i + 1) = d * 2 ^ (i + 1 + 1)
        ring

/-- The doubling backoff sequence is strictly increasing when the initial
delay is positive. -/
theorem geometric_delays_pairwise (d n : Nat) (hd : 0 < d) :
    ((List.range n).map (fun i => d * 2 ^ (i + 1))).Pairwise (· < ·) := by
  rw [List.pairwise_map]
  apply List.Pairwise.imp ?_ (List.pairwise_lt_range n)
  intro a b hab
  have h2 : (2 : ℕ) ^ (a + 1) < 2 ^ (b + 1) :=
    Nat.pow_lt_pow_right (by norm_num) (by omega)
  exact mul_lt_mul_of_pos_left h2 hd

/-- A case-sensitive option header at the start of the tail makes the
legacy option loop produce at least one match. -/
theorem legacyFormatOptions_some_of_header (tail : String)
    (hp : (optionHeaderAt false true tail.toList).isSome = true) :
    ∃ s, legacyFormatOptions tail = some s := by
  obtain ⟨pr, hpr⟩ := Option.isSome_iff_exists.mp hp
  obtain ⟨hlen, num⟩ := pr
  unfold legacyFormatOptions legacyOptionsGo
  rw [firstSufIdx_here (by rw [hpr]; rfl) 0]
  dsimp only
  rw [List.drop_zero, hpr]
  dsimp only
  cases firstSufIdx legacyLookaheadAt ((tail.toList.drop hlen)) 0 with
  | some q => exact ⟨_, rfl⟩
  | none => exact ⟨_, rfl⟩

/-- The empty message matches none of the six delimiter detections. -/
theorem empty_message_no_detections :
    matchBlockCI "" ("[options]") ("[/options]") = none ∧
    matchBlockCI "" ("[rewrite]") ("[/rewrite]") = none ∧
    findOptionHeaderIdx "" = none ∧
    jsIncludes "" ("Suggested Content:") = false ∧
    fenceInners "" = [] ∧
    jsIncludes "" ("[COMMENT]") = false := by
  exact ⟨rfl, rfl, rfl, rfl, rfl, rfl⟩

/-- Branch lemma: an `[OPTIONS]` block match short-circuits the parser. -/
theorem extract_options_eq (m s : String)
    (h : matchBlockCI m ("[options]") ("[/options]") = some s) :
    extractSuggestedContent m = some (formatOptionsBlock s) := by
  by_cases hm : m = ""
  · subst hm
    rw [empty_message_no_detections.1] at h
    cases h
  · unfold extractSuggestedContent
    rw [if_neg hm, h]

/-- Branch lemma: with no `[OPTIONS]` block, a `[REWRITE]` block match
yields the sanitized trimmed inner fragment. -/
theorem extract_rewrite_eq (m : String)
    (hO : matchBlockCI m ("[options]") ("[/options]") = none)
    (s : String) (h : matchBlockCI m ("[rewrite]") ("[/rewrite]") = some s) :
    extractSuggestedContent m = some (sanitizeContent (jsTrim s)) := by
  by_cases hm : m = ""
  · subst hm
    rw [empty_message_no_detections.2.1] at h
    cases h
  · unfold extractSuggestedContent
    rw [if_neg hm, hO, h]

/-- Branch lemma: with neither block, a case-sensitive `Option N:` header
hands the message tail from the header onwards to the option formatter. -/
theorem extract_header_eq (m : String)
    (hO : matchBlockCI m ("[options]") ("[/options]") = none)
    (hR : matchBlockCI m ("[rewrite]") ("[/rewrite]") = none)
    (i : Nat) (h : findOptionHeaderIdx m = some i) :
    ((jsIncludesChar (jsDrop m i) '<' && jsIncludesChar (jsDrop m i) '>') = true →
      extractSuggestedContent m = some (sanitizeContent (jsDrop m i))) ∧
    ((jsIncludesChar (jsDrop m i) '<' && jsIncludesChar (jsDrop m i) '>') = false →
      ∃ s, legacyFormatOptions (jsDrop m i) = some s ∧
        extractSuggestedContent m = some s) := by
  by_cases hm : m = ""
  · subst hm
    rw [empty_message_no_detections.2.2.1] at h
    cases h
  · have hdr : (optionHeaderAt false true ((jsDrop m i).toList)).isSome = true := by
      have := (firstSufIdx_spec _ m.toList 0 i h).2
      simpa using this
    constructor
    · intro hin
      unfold extractSuggestedContent
      rw [if_neg hm, hO, hR, h]
      dsimp only
      rw [hin]
      rfl
    · intro hin
      obtain ⟨s, hs⟩ := legacyFormatOptions_some_of_header (jsDrop m i) hdr
      refine ⟨s, hs, ?_⟩
      unfold extractSuggestedContent
      rw [if_neg hm, hO, hR, h]
      dsimp only
      rw [hin, hs]
      rfl

/-- Branch lemma: with none of the first three styles, a
`Suggested Content:` heading selects the segment after it. -/
theorem extract_suggested_eq (m : String)
    (hO : matchBlockCI m ("[options]") ("[/options]") = none)
    (hR : matchBlockCI m ("[rewrite]") ("[/rewrite]") = none)
    (hH : findOptionHeaderIdx m = none)
    (hS : jsIncludes m ("Suggested Content:") = true) :
    extractSuggestedContent m = some (processSuggested (suggestedSegment m)) := by
  by_cases hm : m = ""
  · subst hm
    rw [empty_message_no_detections.2.2.2.1] at hS
    cases hS
  · unfold extractSuggestedContent extractPhase4
    rw [if_neg hm, hO, hR, hH, hS]
    rfl

/-- Branch lemma: otherwise the last triple-backtick fence wins. -/
theorem extract_fence_eq (m : String)
    (hO : matchBlockCI m ("[options]") ("[/options]") = none)
    (hR : matchBlockCI m ("[rewrite]") ("[/rewrite]") = none)
    (hH : findOptionHeaderIdx m = none)
    (hS : jsIncludes m ("Suggested Content:") = false)
    (s : String) (hF : (fenceInners m).getLast? = some s) :
    extractSuggestedContent m = some (processFenceContent s) := by
  by_cases hm : m = ""
  · subst hm
    rw [empty_message_no_detections.2.2.2.2.1] at hF
    cases hF
  · unfold extractSuggestedContent extractPhase4
    rw [if_neg hm, hO, hR, hH, hS]
    dsimp only
    rw [hF]
    rfl

/-- Branch lemma: with no fence either, a `[COMMENT]...[/COMMENT]` block
with a nonempty trimmed remainder yields that remainder, sanitized and
wrapped. -/
theorem extract_comment_eq (m : String)
    (hO : matchBlockCI m ("[options]") ("[/options]") = none)
    (hR : matchBlockCI m ("[rewrite]") ("[/rewrite]") = none)
    (hH : findOptionHeaderIdx m = none)
    (hS : jsIncludes m ("Suggested Content:") = false)
    (hF : (fenceInners m).getLast? = none)
    (hC : (jsIncludes m ("[COMMENT]") && jsIncludes m ("[/COMMENT]")) = true)
    (ci : Nat) (hci : findLit ("[/COMMENT]".toList) m.toList = some ci)
    (hne : jsTrim (jsDrop m (ci + 10)) ≠ "") :
    extractSuggestedContent m =
      some (processCommentTail (jsTrim (jsDrop m (ci + 10)))) := by
  by_cases hm : m = ""
  · subst hm
    rw [show (jsIncludes "" ("[COMMENT]") && jsIncludes "" ("[/COMMENT]")) = false
      from rfl] at hC
    cases hC
  · unfold extractSuggestedContent extractPhase4
    rw [if_neg hm, hO, hR, hH, hS]
    dsimp only
    rw [hF, hC]
    dsimp only
    rw [hci]
    dsimp only
    rw [if_neg hne]
    rfl

/-- Branch lemma: when none of the six styles is detected the parser
returns null. -/
theorem extract_none_eq (m : String)
    (hO : matchBlockCI m ("[options]") ("[/options]") = none)
    (hR : matchBlockCI m ("[rewrite]") ("[/rewrite]") = none)
    (hH : findOptionHeaderIdx m = none)
    (hS : jsIncludes m ("Suggested Content:") = false)
    (hF : (fenceInners m).getLast? = none)
    (hC : (jsIncludes m ("[COMMENT]") && jsIncludes m ("[/COMMENT]")) = false) :
    extractSuggestedContent m = none := by
  by_cases hm : m = ""
  · subst hm
    rfl
  · unfold extractSuggestedContent extractPhase4
    rw [if_neg hm, hO, hR, hH, hS]
    dsimp only
    rw [hF, hC]
    rfl

/-! ## Claim theorems -/

/-- C3: when several delimiter styles match at once, the first matching
pattern of the fixed order wins: `[OPTIONS]` block, then `[REWRITE]` block,
then `Option N:` headers, then the `Suggested Content:` heading, then
triple-backtick fences, then the text after a `[COMMENT]` block. -/
theorem extractSuggestedContent_priority (m : String) :
    (∀ s, matchBlockCI m ("[options]") ("[/options]") = some s →
      extractSuggestedContent m = some (formatOptionsBlock s)) ∧
    (matchBlockCI m ("[options]") ("[/options]") = none →
      ∀ s, matchBlockCI m ("[rewrite]") ("[/rewrite]") = some s →
        extractSuggestedContent m = some (sanitizeContent (jsTrim s))) ∧
    (matchBlockCI m ("[options]") ("[/options]") = none →
      matchBlockCI m ("[rewrite]") ("[/rewrite]") = none →
      ∀ i, findOptionHeaderIdx m = some i →
        (((jsIncludesChar (jsDrop m i) '<' && jsIncludesChar (jsDrop m i) '>') = true →
          extractSuggestedContent m = some (sanitizeContent (jsDrop m i))) ∧
        ((jsIncludesChar (jsDrop m i) '<' && jsIncludesChar (jsDrop m i) '>') = false →
          ∃ s, legacyFormatOptions (jsDrop m i) = some s ∧
            extractSuggestedContent m = some s))) ∧
    (matchBlockCI m ("[options]") ("[/options]") = none →
      matchBlockCI m ("[rewrite]") ("[/rewrite]") = none →
      findOptionHeaderIdx m = none →
      jsIncludes m ("Suggested Content:") = true →
      extractSuggestedContent m = some (processSuggested (suggestedSegment m))) ∧
    (matchBlockCI m ("[options]") ("[/options]") = none →
      matchBlockCI m ("[rewrite]") ("[/rewrite]") = none →
      findOptionHeaderIdx m = none →
      jsIncludes m ("Suggested Content:") = false →
      ∀ s, (fenceInners m).getLast? = some s →
        extractSuggestedContent m = some (processFenceContent s)) ∧
    (matchBlockCI m ("[options]") ("[/options]") = none →
      matchBlockCI m ("[rewrite]") ("[/rewrite]") = none →
      findOptionHeaderIdx m = none →
      jsIncludes m ("Suggested Content:") = false →
      (fenceInners m).getLast? = none →
      (jsIncludes m ("[COMMENT]") && jsIncludes m ("[/COMMENT]")) = true →
      ∀ ci, findLit ("[/COMMENT]".toList) m.toList = some ci →
        jsTrim (jsDrop m (ci + 10)) ≠ "" →
        extractSuggestedContent m =
          some (processCommentTail (jsTrim (jsDrop m (ci + 10))))) := by
  refine ⟨?_, ?_, ?_, ?_, ?_, ?_⟩
  · intro s h
    exact extract_options_eq m s h
  · intro hO s h
    exact extract_rewrite_eq m hO s h
  · intro hO hR i h
    exact extract_header_eq m hO hR i h
  · intro hO hR hH hS
    exact extract_suggested_eq m hO hR hH hS
  · intro hO hR hH hS s hF
    exact extract_fence_eq m hO hR hH hS s hF
  · intro hO hR hH hS hF hC ci hci hne
    exact extract_comment_eq m hO hR hH hS hF hC ci hci hne

/-- C3 witness: a message containing both an `[OPTIONS]` and a `[REWRITE]`
block resolves to the options formatting; without the options block the
rewrite block wins over a trailing fence. -/
theorem extractSuggestedContent_priority_witness :
    extractSuggestedContent ("[OPTIONS]x[/OPTIONS][REWRITE]y[/REWRITE]") =
      some (formatOptionsBlock ("x")) ∧
    extractSuggestedContent ("[REWRITE]y[/REWRITE] ```z```") =
      some (sanitizeContent (jsTrim ("y"))) := by
  constructor
  · exact (extractSuggestedContent_priority
      ("[OPTIONS]x[/OPTIONS][REWRITE]y[/REWRITE]")).1 ("x") (by decide)
  · exact (extractSuggestedContent_priority
      ("[REWRITE]y[/REWRITE] ```z```")).2.1 (by decide) ("y") (by decide)

/-- C1: the parser returns null when none of the six documented delimiter
styles is present, and when exactly one style is present it returns the
fragment delimited by that style, processed as documented (trimmed,
sanitized, wrapped or converted to HTML by the per-branch pipeline). -/
theorem extractSuggestedContent_single_style (m : String) :
    (matchBlockCI m ("[options]") ("[/options]") = none →
      matchBlockCI m ("[rewrite]") ("[/rewrite]") = none →
      findOptionHeaderIdx m = none →
      jsIncludes m ("Suggested Content:") = false →
      (fenceInners m).getLast? = none →
      (jsIncludes m ("[COMMENT]") && jsIncludes m ("[/COMMENT]")) = false →
      extractSuggestedContent m = none) ∧
    (∀ s, matchBlockCI m ("[options]") ("[/options]") = some s →
      matchBlockCI m ("[rewrite]") ("[/rewrite]") = none →
      findOptionHeaderIdx m = none →
      jsIncludes m ("Suggested Content:") = false →
      (fenceInners m).getLast? = none →
      (jsIncludes m ("[COMMENT]") && jsIncludes m ("[/COMMENT]")) = false →
      extractSuggestedContent m = some (formatOptionsBlock s)) ∧
    (∀ s, matchBlockCI m ("[options]") ("[/options]") = none →
      matchBlockCI m ("[rewrite]") ("[/rewrite]") = some s →
      findOptionHeaderIdx m = none →
      jsIncludes m ("Suggested Content:") = false →
      (fenceInners m).getLast? = none →
      (jsIncludes m ("[COMMENT]") && jsIncludes m ("[/COMMENT]")) = false →
      extractSuggestedContent m = some (sanitizeContent (jsTrim s))) ∧
    (∀ i, matchBlockCI m ("[options]") ("[/options]") = none →
      matchBlockCI m ("[rewrite]") ("[/rewrite]") = none →
      findOptionHeaderIdx m = some i →
      jsIncludes m ("Suggested Content:") = false →
      (fenceInners m).getLast? = none →
      (jsIncludes m ("[COMMENT]") && jsIncludes m ("[/COMMENT]")) = false →
      (((jsIncludesChar (jsDrop m i) '<' && jsIncludesChar (jsDrop m i) '>') = true →
        extractSuggestedContent m = some (sanitizeContent (jsDrop m i))) ∧
      ((jsIncludesChar (jsDrop m i) '<' && jsIncludesChar (jsDrop m i) '>') = false →
        ∃ s, legacyFormatOptions (jsDrop m i) = some s ∧
          extractSuggestedContent m = some s))) ∧
    (matchBlockCI m ("[options]") ("[/options]") = none →
      matchBlockCI m ("[rewrite]") ("[/rewrite]") = none →
      findOptionHeaderIdx m = none →
      jsIncludes m ("Suggested Content:") = true →
      (fenceInners m).getLast? = none →
      (jsIncludes m ("[COMMENT]") && jsIncludes m ("[/COMMENT]")) = false →
      extractSuggestedContent m = some (processSuggested (suggestedSegment m))) ∧
    (∀ s, matchBlockCI m ("[options]") ("[/options]") = none →
      matchBlockCI m ("[rewrite]") ("[/rewrite]") = none →
      findOptionHeaderIdx m = none →
      jsIncludes m ("Suggested Content:") = false →
      (fenceInners m).getLast? = some s →
      (jsIncludes m ("[COMMENT]") && jsIncludes m ("[/COMMENT]")) = false →
      extractSuggestedContent m = some (processFenceContent s)) ∧
    (matchBlockCI m ("[options]") ("[/options]") = none →
      matchBlockCI m ("[rewrite]") ("[/rewrite]") = none →
      findOptionHeaderIdx m = none →
      jsIncludes m ("Suggested Content:") = false →
      (fenceInners m).getLast? = none →
      (jsIncludes m ("[COMMENT]") && jsIncludes m ("[/COMMENT]")) = true →
      ∀ ci, findLit ("[/COMMENT]".toList) m.toList = some ci →
        jsTrim (jsDrop m (ci + 10)) ≠ "" →
        extractSuggestedContent m =
          some (processCommentTail (jsTrim (jsDrop m (ci + 10))))) := by
  refine ⟨?_, ?_, ?_, ?_, ?_, ?_, ?_⟩
  · intro hO hR hH hS hF hC
    exact extract_none_eq m hO hR hH hS hF hC
  · intro s h _ _ _ _ _
    exact extract_options_eq m s h
  · intro s hO h _ _ _ _
    exact extract_rewrite_eq m hO s h
  · intro i hO hR h _ _ _
    exact extract_header_eq m hO hR i h
  · intro hO hR hH hS _ _
    exact extract_suggested_eq m hO hR hH hS
  · intro s hO hR hH hS hF _
    exact extract_fence_eq m hO hR hH hS s hF
  · intro hO hR hH hS hF hC ci hci hne
    exact extract_comment_eq m hO hR hH hS hF hC ci hci hne

/-- C1 witness: a delimiter-free message yields null; a message with only a
`[REWRITE]` block yields its sanitized trimmed inner fragment; a message
with only a fence yields the fence pipeline result. -/
theorem extractSuggestedContent_single_style_witness :
    extractSuggestedContent ("nothing to see here") = none ∧
    extractSuggestedContent ("[REWRITE]hi[/REWRITE]") =
      some (sanitizeContent (jsTrim ("hi"))) ∧
    extractSuggestedContent ("take ```this``` now") =
      some (processFenceContent ("this")) := by
  refine ⟨?_, ?_, ?_⟩
  · exact (extractSuggestedContent_single_style ("nothing to see here")).1
      (by decide) (by decide) (by decide) (by decide) (by decide) (by decide)
  · exact (extractSuggestedContent_single_style ("[REWRITE]hi[/REWRITE]")).2.2.1
      ("hi") (by decide) (by decide) (by decide) (by decide) (by decide) (by decide)
  · exact (extractSuggestedContent_single_style ("take ```this``` now")).2.2.2.2.2.1
      ("this") (by decide) (by decide) (by decide) (by decide) (by decide) (by decide)

/-- C2: `retryOperation` invokes the operation at most `maxRetries` times in
total; a failure classified token-limit (`token limit` / `max tokens` /
`content too long`) stops the loop at once — no invocation beyond that
attempt, and when it is the first attempt the wrapper throws the fixed
too-large message after exactly one invocation; and when every attempt
fails with a timeout-classified error the loop performs all `maxRetries`
invocations with the doubling, strictly increasing backoff sleeps. -/
theorem retryOperation_retry_policy (α : Type) (op : Nat → Except String α)
    (maxRetries initialDelay : Nat) (hd : 0 < initialDelay) :
    (retryOperation op maxRetries initialDelay).calls ≤ maxRetries ∧
    (∀ j e, op j = Except.error e → isTokenLimitError e = true →
      (retryOperation op maxRetries initialDelay).calls ≤ j + 1) ∧
    (1 ≤ maxRetries → ∀ e, op 0 = Except.error e → isTokenLimitError e = true →
      (retryOperation op maxRetries initialDelay).result =
        Except.error tokenLimitThrowMsg ∧
      (retryOperation op maxRetries initialDelay).calls = 1) ∧
    ((∀ j, j < maxRetries → ∃ e, op j = Except.error e ∧ isTimeoutError e = true ∧
        isTokenLimitError e = false) →
      (retryOperation op maxRetries initialDelay).calls = maxRetries ∧
      (retryOperation op maxRetries initialDelay).delays =
        (List.range (maxRetries - 1)).map (fun i => initialDelay * 2 ^ (i + 1)) ∧
      (retryOperation op maxRetries initialDelay).delays.Pairwise (· < ·)) := by
  refine ⟨?_, ?_, ?_, ?_⟩
  · exact retryGo_calls_le op maxRetries 0 initialDelay none
  · intro j e hj ht
    have h := retryGo_token_stops op j e hj ht maxRetries 0 initialDelay none (by omega)
    unfold retryOperation
    omega
  · intro hmr e h0 ht
    obtain ⟨f, rfl⟩ : ∃ f, maxRetries = f + 1 := ⟨maxRetries - 1, by omega⟩
    unfold retryOperation retryGo
    rw [h0]
    dsimp only
    rw [if_pos ht]
    exact ⟨rfl, rfl⟩
  · intro hall
    have h := retryGo_all_timeout op maxRetries 0 initialDelay none (by
      intro k hk
      have := hall k hk
      simpa using this)
    refine ⟨h.1, h.2, ?_⟩
    rw [show (retryOperation op maxRetries initialDelay).delays =
      (List.range (maxRetries - 1)).map (fun i => initialDelay * 2 ^ (i + 1)) from h.2]
    exact geometric_delays_pairwise initialDelay (maxRetries - 1) hd

/-- C2 witness: a persistent timeout error exhausts all three default
attempts with sleeps 2000 then 4000 ms; a token-limit error stops after a
single invocation with the fixed error. -/
theorem retryOperation_retry_policy_witness :
    (retryOperation (fun _ => (Except.error ("timeout") : Except String Nat)) 3 1000).calls
        = 3 ∧
    (retryOperation (fun _ => (Except.error ("timeout") : Except String Nat)) 3 1000).delays
        = [2000, 4000] ∧
    (retryOperation (fun _ => (Except.error ("timeout") : Except String Nat)) 3
        1000).delays.Pairwise (· < ·) ∧
    (retryOperation (fun _ => (Except.error ("hit the token limit") : Except String Nat)) 3
        1000).calls = 1 ∧
    (retryOperation (fun _ => (Except.error ("hit the token limit") : Except String Nat)) 3
        1000).result = Except.error tokenLimitThrowMsg := by
  have hto := (retryOperation_retry_policy Nat
    (fun _ => (Except.error ("timeout") : Except String Nat)) 3 1000 (by norm_num)).2.2.2
    (fun j _ => ⟨("timeout"), rfl, by decide, by decide⟩)
  have htk := (retryOperation_retry_policy Nat
    (fun _ => (Except.error ("hit the token limit") : Except String Nat)) 3 1000
    (by norm_num)).2.2.1 (by norm_num) ("hit the token limit") rfl (by decide)
  refine ⟨hto.1, ?_, hto.2.2, htk.2, htk.1⟩
  rw [hto.2.1]
  decide

/-- C6: starting from the empty history, the in-memory chat buffer is
capped: `addToHistory` trims to the 20 most recent entries before pushing,
so the stored length never exceeds the fixed bound 21 (20 retained entries
plus the newly pushed one), after every call of any call sequence. -/
theorem addToHistory_length_bounded :
    (∀ (h : List ChatMsg) (m : ChatMsg), (addToHistory h m).length ≤ 21) ∧
    (∀ msgs : List ChatMsg, (msgs.foldl addToHistory []).length ≤ 21) := by
  have step : ∀ (h : List ChatMsg) (m : ChatMsg), (addToHistory h m).length ≤ 21 := by
    intro h m
    unfold addToHistory
    by_cases hl : 20 < h.length
    · simp only [if_pos hl, List.length_append, List.length_drop, List.length_cons,
        List.length_nil]
      omega
    · simp only [if_neg hl, List.length_append, List.length_cons, List.length_nil]
      omega
  refine ⟨step, ?_⟩
  have go : ∀ (msgs : List ChatMsg) (acc : List ChatMsg), acc.length ≤ 21 →
      (msgs.foldl addToHistory acc).length ≤ 21 := by
    intro msgs
    induction msgs with
    | nil => intro acc h; simpa using h
    | cons m rest ih =>
      intro acc _
      simp only [List.foldl_cons]
      exact ih (addToHistory acc m) (step acc m)
  intro msgs
  exact go msgs [] (by simp)

/-- C5: the placement heuristics are deterministic functions of their
arguments: equal user requests (and equal AI responses) always yield the
same operation type and the same change type. -/
theorem placementHeuristic_deterministic (u₁ u₂ a₁ a₂ : String)
    (hu : u₁ = u₂) (ha : a₁ = a₂) :
    detectOperationType (some u₁) = detectOperationType (some u₂) ∧
    detectChangeType u₁ a₁ = detectChangeType u₂ a₂ := by
  subst hu
  subst ha
  exact ⟨rfl, rfl⟩

/-- C5 witness: determinism instantiated at a concrete request/response. -/
theorem placementHeuristic_deterministic_witness :
    detectOperationType (some ("improve the intro")) =
      detectOperationType (some ("improve the intro")) ∧
    detectChangeType ("improve the intro") ("Here you go") =
      detectChangeType ("improve the intro") ("Here you go") :=
  placementHeuristic_deterministic ("improve the intro") ("improve the intro")
    ("Here you go") ("Here you go") rfl rfl

/-- C7: `handleApiError` always surfaces the failure as a chat-message
object with `suggestedContent` null and mode `conversation`, and classifies
by message substring in the fixed precedence order: token-limit
(`token limit` / `content too large` / `content too long`), then timeout
(`timeout` / `ETIMEDOUT`), then rate-limit (`rate limit` / `429`),
otherwise the generic reply. -/
theorem handleApiError_classification (e : Option String) :
    (handleApiError e).suggestedContent = none ∧
    (handleApiError e).mode = "conversation" ∧
    (∀ msg, e = some msg →
      ((jsIncludes msg ("token limit") || jsIncludes msg ("content too large") ||
          jsIncludes msg ("content too long")) = true →
        handleApiError e = tokenLimitReply) ∧
      ((jsIncludes msg ("token limit") || jsIncludes msg ("content too large") ||
          jsIncludes msg ("content too long")) = false →
        (jsIncludes msg ("timeout") || jsIncludes msg ("ETIMEDOUT")) = true →
        handleApiError e = timeoutReply) ∧
      ((jsIncludes msg ("token limit") || jsIncludes msg ("content too large") ||
          jsIncludes msg ("content too long")) = false →
        (jsIncludes msg ("timeout") || jsIncludes msg ("ETIMEDOUT")) = false →
        (jsIncludes msg ("rate limit") || jsIncludes msg ("429")) = true →
        handleApiError e = rateLimitReply) ∧
      ((jsIncludes msg ("token limit") || jsIncludes msg ("content too large") ||
          jsIncludes msg ("content too long")) = false →
        (jsIncludes msg ("timeout") || jsIncludes msg ("ETIMEDOUT")) = false →
        (jsIncludes msg ("rate limit") || jsIncludes msg ("429")) = false →
        handleApiError e = generalReply msg)) := by
  refine ⟨?_, ?_, ?_⟩
  · unfold handleApiError
    cases e <;> dsimp only <;> split_ifs <;>
      simp [tokenLimitReply, timeoutReply, rateLimitReply, generalReply]
  · unfold handleApiError
    cases e <;> dsimp only <;> split_ifs <;>
      simp [tokenLimitReply, timeoutReply, rateLimitReply, generalReply]
  · intro msg hmsg
    subst hmsg
    refine ⟨?_, ?_, ?_, ?_⟩
    · intro h1
      unfold handleApiError
      dsimp only
      simp only [Bool.or_assoc] at h1 ⊢
      simp only [h1, if_true]
    · intro h1 h2
      unfold handleApiError
      dsimp only
      simp only [Bool.or_assoc] at h1 ⊢
      simp only [h1, h2, Bool.false_eq_true, if_false, if_true]
    · intro h1 h2 h3
      unfold handleApiError
      dsimp only
      simp only [Bool.or_assoc] at h1 ⊢
      simp only [h1, h2, h3, Bool.false_eq_true, if_false, if_true]
    · intro h1 h2 h3
      unfold handleApiError
      dsimp only
      simp only [Bool.or_assoc] at h1 ⊢
      simp only [h1, h2, h3, Bool.false_eq_true, if_false]

/-- C7 witness: the classification applied to concrete error messages of
each class. -/
theorem handleApiError_classification_witness :
    handleApiError (some ("request timeout after 30s")) = timeoutReply ∧
    handleApiError (some ("upstream 429: rate limit")) = rateLimitReply ∧
    handleApiError (some ("boom")) = generalReply ("boom") := by
  refine ⟨?_, ?_, ?_⟩
  · exact (((handleApiError_classification (some ("request timeout after 30s"))).2.2
      ("request timeout after 30s") rfl).2.1) (by decide) (by decide)
  · exact (((handleApiError_classification (some ("upstream 429: rate limit"))).2.2
      ("upstream 429: rate limit") rfl).2.2.1) (by decide) (by decide) (by decide)
  · exact (((handleApiError_classification (some ("boom"))).2.2
      ("boom") rfl).2.2.2) (by decide) (by decide) (by decide)

/-- C4 (amended): when the user message contains none of the placement
keywords and no text is selected, the inline-visualizer heuristic
(`ai-response-handler.js`) classifies the request as `generic` and proposes
the suggested fragment as an appended insertion at the end of the editor
content; the simplified handler (`simplified-ai-handler.js`), however,
falls back to the change type `rewrite` in the same situation, which
`applyChanges` realizes as a full-content replacement, not an append. -/
theorem placement_fallbacks (u a : String)
    (hk : noPlacementKeywords u = true)
    (hp : noChangePatterns u = true)
    (ha : noResponseProbes a = true) :
    detectOperationType (some u) = "generic" ∧
    rewritePlacement none (some u) = SpliceStrategy.appendEnd ∧
    detectChangeType u a = "rewrite" ∧
    simplifiedStrategy u a none = SimplifiedApply.fullContentChange := by
  simp only [noPlacementKeywords, Bool.and_eq_true, Bool.not_eq_true'] at hk
  obtain ⟨⟨⟨⟨⟨⟨⟨⟨⟨⟨⟨k1, k2⟩, k3⟩, k4⟩, k5⟩, k6⟩, k7⟩, k8⟩, k9⟩, k10⟩, k11⟩, k12⟩ := hk
  simp only [noChangePatterns, Bool.and_eq_true, Bool.not_eq_true'] at hp
  obtain ⟨⟨⟨⟨⟨⟨p1, p2⟩, p3⟩, p4⟩, p5⟩, p6⟩, p7⟩ := hp
  simp only [noResponseProbes, Bool.and_eq_true, Bool.not_eq_true'] at ha
  obtain ⟨⟨⟨a1, a2⟩, a3⟩, a4⟩ := ha
  have hop : detectOperationType (some u) = "generic" := by
    dsimp only [detectOperationType]
    simp [k1, k2, k3, k4, k5, k6, k7, k8, k9, k10, k11, k12]
  have hct : detectChangeType u a = "rewrite" := by
    dsimp only [detectChangeType]
    simp [p1, p2, p3, p4, p5, p6, p7, a1, a2, a3, a4]
  refine ⟨hop, ?_, hct, ?_⟩
  · dsimp only [rewritePlacement]
    rw [hop]
    rfl
  · dsimp only [simplifiedStrategy]
    rw [hct]
    rfl

/-- C4 witness: the fallbacks instantiated at a keyword-free request. -/
theorem placement_fallbacks_witness :
    detectOperationType (some ("hello there")) = "generic" ∧
    rewritePlacement none (some ("hello there")) = SpliceStrategy.appendEnd ∧
    detectChangeType ("hello there") ("ok") = "rewrite" ∧
    simplifiedStrategy ("hello there") ("ok") none =
      SimplifiedApply.fullContentChange :=
  placement_fallbacks ("hello there") ("ok") (by decide) (by decide) (by decide)

/-- C4 counterexample: the claim asserts an append-at-the-end splice for
every keyword-free message with no selection, but the simplified handler
resolves exactly that situation to `applyFullContentChange` (the editor is
cleared and the fragment pasted at index 0) — a replacement of the whole
document, not the append action (`applyParagraphAddition` is the handler
that pastes at the editor end). -/
theorem simplified_fallback_replaces_not_appends :
    noPlacementKeywords ("hello there") = true ∧
    simplifiedStrategy ("hello there") ("ok") none =
      SimplifiedApply.fullContentChange ∧
    SimplifiedApply.fullContentChange ≠ SimplifiedApply.paragraphAddition := by
  refine ⟨by decide, by decide, by decide⟩

/-- Response shape of `getAssistants`: CORS headers always, an `error`
field on every non-200 body. -/
theorem getAssistantsFn_shape (rid : Option String) (env : AirtableEnv) :
    (getAssistantsFn rid env).headers = corsHeaders ∧
    ((getAssistantsFn rid env).statusCode ≠ 200 →
      ∃ b, (getAssistantsFn rid env).body = some b ∧ jHasField b ("error") = true) := by
  unfold getAssistantsFn
  cases env.getContent rid with
  | error msg => exact ⟨rfl, fun _ => ⟨_, rfl, rfl⟩⟩
  | ok data =>
    dsimp only
    cases linkedAssistantIds data with
    | error msg => exact ⟨rfl, fun _ => ⟨_, rfl, rfl⟩⟩
    | ok ids =>
      cases ids with
      | nil => exact ⟨rfl, fun h => absurd rfl h⟩
      | cons x xs =>
        dsimp only
        cases env.listAssistants
            (some (("AND(Active=TRUE(),OR(") ++ recordIdDisjuncts (x :: xs) ++ ("))"))) with
        | ok adata => exact ⟨rfl, fun h => absurd rfl h⟩
        | error msg => exact ⟨rfl, fun _ => ⟨_, rfl, rfl⟩⟩

/-- Response shape of `getContentRecord`. -/
theorem getContentRecordFn_shape (rid : Option String) (env : AirtableEnv) :
    (getContentRecordFn rid env).headers = corsHeaders ∧
    ((getContentRecordFn rid env).statusCode ≠ 200 →
      ∃ b, (getContentRecordFn rid env).body = some b ∧ jHasField b ("error") = true) := by
  unfold getContentRecordFn
  cases env.getContent rid with
  | ok data => exact ⟨rfl, fun h => absurd rfl h⟩
  | error msg => exact ⟨rfl, fun _ => ⟨_, rfl, rfl⟩⟩

/-- Response shape of `getAssistantsByFilter`. -/
theorem getAssistantsByFilterFn_shape (ff : Option String) (env : AirtableEnv) :
    (getAssistantsByFilterFn ff env).headers = corsHeaders ∧
    ((getAssistantsByFilterFn ff env).statusCode ≠ 200 →
      ∃ b, (getAssistantsByFilterFn ff env).body = some b ∧ jHasField b ("error") = true) := by
  unfold getAssistantsByFilterFn
  cases env.listAssistants ff with
  | ok data => exact ⟨rfl, fun h => absurd rfl h⟩
  | error msg => exact ⟨rfl, fun _ => ⟨_, rfl, rfl⟩⟩

/-- Response shape of `updateContent`. -/
theorem updateContentFn_shape (rid : Option String) (fs : Option JVal)
    (env : AirtableEnv) :
    (updateContentFn rid fs env).headers = corsHeaders ∧
    ((updateContentFn rid fs env).statusCode ≠ 200 →
      ∃ b, (updateContentFn rid fs env).body = some b ∧ jHasField b ("error") = true) := by
  unfold updateContentFn
  cases env.patchContent rid fs with
  | ok data => exact ⟨rfl, fun h => absurd rfl h⟩
  | error msg => exact ⟨rfl, fun _ => ⟨_, rfl, rfl⟩⟩

/-- C8 (amended): every response of the Airtable proxy carries the same
fixed CORS headers; the preflight response is 200 with an empty body; and
every non-200 response carries a JSON body with an `error` field.  Success
(200) bodies of the record-store operations, however, pass through the
store data (or the literal `{records: []}`), which need not contain a
`message` or `error` field. -/
theorem proxyHandler_cors_and_errors (ev : ProxyEvent) (env : AirtableEnv) :
    (proxyHandler ev env).headers = corsHeaders ∧
    ((proxyHandler ev env).statusCode ≠ 200 →
      ∃ b, (proxyHandler ev env).body = some b ∧ jHasField b ("error") = true) ∧
    (ev.httpMethod = "OPTIONS" →
      (proxyHandler ev env).statusCode = 200 ∧ (proxyHandler ev env).body = none) := by
  unfold proxyHandler
  by_cases hm : ev.httpMethod = "OPTIONS"
  · rw [if_pos hm]
    exact ⟨rfl, fun h => absurd rfl h, fun _ => ⟨rfl, rfl⟩⟩
  · rw [if_neg hm]
    refine ?_
    cases ev.body with
    | none => exact ⟨rfl, fun _ => ⟨_, rfl, rfl⟩, fun h => absurd h hm⟩
    | some req =>
      dsimp only
      cases req.operation with
      | none => exact ⟨rfl, fun _ => ⟨_, rfl, rfl⟩, fun h => absurd h hm⟩
      | some op =>
        dsimp only
        by_cases h0 : op = ""
        · rw [if_pos h0]
          exact ⟨rfl, fun _ => ⟨_, rfl, rfl⟩, fun h => absurd h hm⟩
        · rw [if_neg h0]
          by_cases h1 : op = "test"
          · rw [if_pos h1]
            exact ⟨rfl, fun h => absurd rfl h, fun h => absurd h hm⟩
          · rw [if_neg h1]
            by_cases h2 : op = "getAssistants"
            · rw [if_pos h2]
              have := getAssistantsFn_shape req.recordId env
              exact ⟨this.1, this.2, fun h => absurd h hm⟩
            · rw [if_neg h2]
              by_cases h3 : op = "getContentRecord"
              · rw [if_pos h3]
                have := getContentRecordFn_shape req.recordId env
                exact ⟨this.1, this.2, fun h => absurd h hm⟩
              · rw [if_neg h3]
                by_cases h4 : op = "getAssistantsByFilter"
                · rw [if_pos h4]
                  have := getAssistantsByFilterFn_shape req.filterFormula env
                  exact ⟨this.1, this.2, fun h => absurd h hm⟩
                · rw [if_neg h4]
                  by_cases h5 : op = "updateContent"
                  · rw [if_pos h5]
                    have := updateContentFn_shape req.recordId req.fields env
                    exact ⟨this.1, this.2, fun h => absurd h hm⟩
                  · rw [if_neg h5]
                    exact ⟨rfl, fun _ => ⟨_, rfl, rfl⟩, fun h => absurd h hm⟩

/-- C8 witness: the shape theorem applied to a concrete malformed request
(unsupported operation) against the concrete environment. -/
theorem proxyHandler_cors_and_errors_witness :
    (proxyHandler
      { httpMethod := "POST",
        body := some { operation := some ("frobnicate"), recordId := none,
                       filterFormula := none, fields := none } }
      emptyLinksEnv).headers = corsHeaders ∧
    ∃ b, (proxyHandler
      { httpMethod := "POST",
        body := some { operation := some ("frobnicate"), recordId := none,
                       filterFormula := none, fields := none } }
      emptyLinksEnv).body = some b ∧ jHasField b ("error") = true := by
  have h := proxyHandler_cors_and_errors
    { httpMethod := "POST",
      body := some { operation := some ("frobnicate"), recordId := none,
                     filterFormula := none, fields := none } }
    emptyLinksEnv
  exact ⟨h.1, h.2.1 (by decide)⟩

/-- C8 counterexample: a supported operation succeeding with no linked
assistants answers 200 with body `{records: []}` — carrying the CORS
headers but neither a `message` nor an `error` field, refuting the claim
that every non-preflight body contains one of the two. -/
theorem proxyHandler_success_body_lacks_fields :
    proxyHandler
      { httpMethod := "POST",
        body := some { operation := some ("getAssistants"), recordId := some ("rec1"),
                       filterFormula := none, fields := none } }
      emptyLinksEnv =
      { statusCode := 200, headers := corsHeaders,
        body := some (JVal.obj [("records", JVal.arr [])]) } ∧
    jHasField (JVal.obj [("records", JVal.arr [])]) ("message") = false ∧
    jHasField (JVal.obj [("records", JVal.arr [])]) ("error") = false := by
  exact ⟨rfl, rfl, rfl⟩

/-- Invariant of the inner word loop of `splitContent`: when every word of
the sentence fits the budget (and the incoming word chunk trims within it),
every pushed chunk fits and the outgoing word chunk trims within it. -/
theorem splitWordsLoop_bound (max : Nat) :
    ∀ (ws : List String) (wc : String),
      (∀ w ∈ ws, estimateTokenCount w ≤ max) →
      estimateTokenCount (jsTrim wc) ≤ max →
      (∀ c ∈ (splitWordsLoop max ws wc).1, estimateTokenCount c ≤ max) ∧
      estimateTokenCount (jsTrim (splitWordsLoop max ws wc).2) ≤ max := by
  intro ws
  induction ws with
  | nil =>
    intro wc hws hwc
    exact ⟨by intro c hc; simp [splitWordsLoop] at hc, by simpa [splitWordsLoop] using hwc⟩
  | cons w rest ih =>
    intro wc hws hwc
    unfold splitWordsLoop
    by_cases hpot : estimateTokenCount (wc ++ w ++ " ") ≤ max
    · rw [if_pos hpot]
      exact ih (wc ++ w ++ " ") (fun x hx => hws x (by simp [hx]))
        (le_trans (estimateTokenCount_trim_le _) hpot)
    · rw [if_neg hpot]
      have hw : estimateTokenCount w ≤ max := hws w (by simp)
      have hwsp : estimateTokenCount (jsTrim (w ++ " ")) ≤ max := by
        rw [jsTrim_append_space]
        exact le_trans (estimateTokenCount_trim_le _) hw
      have hrest := ih (w ++ " ") (fun x hx => hws x (by simp [hx])) hwsp
      cases hsw : splitWordsLoop max rest (w ++ " ") with
      | mk pushed final =>
        rw [hsw] at hrest
        dsimp only at hrest ⊢
        by_cases hwc0 : wc = ""
        · rw [if_pos hwc0]
          exact hrest
        · rw [if_neg hwc0]
          dsimp only
          refine ⟨?_, hrest.2⟩
          intro c hc
          rcases List.mem_cons.mp hc with h | h
          · subst h; exact hwc
          · exact hrest.1 c h

/-- Invariant of the sentence loop of `splitContent`. -/
theorem splitSentenceLoop_bound (max : Nat) :
    ∀ (ss : List String) (st : SplitState),
      (∀ s ∈ ss, ∀ w ∈ splitWords s, estimateTokenCount w ≤ max) →
      (∀ c ∈ st.chunks, estimateTokenCount c ≤ max) →
      estimateTokenCount (jsTrim st.currentChunk) ≤ max →
      (∀ c ∈ (splitSentenceLoop max ss st).chunks, estimateTokenCount c ≤ max) ∧
      estimateTokenCount (jsTrim (splitSentenceLoop max ss st).currentChunk) ≤ max := by
  intro ss
  induction ss with
  | nil =>
    intro st hss hch hcc
    exact ⟨by simpa [splitSentenceLoop] using hch, by simpa [splitSentenceLoop] using hcc⟩
  | cons sentence rest ih =>
    intro st hss hch hcc
    unfold splitSentenceLoop
    dsimp only
    by_cases hpot : estimateTokenCount (st.currentChunk ++ sentence ++ " ") ≤ max
    · rw [if_pos hpot]
      exact ih _ (fun s hs => hss s (by simp [hs])) hch
        (le_trans (estimateTokenCount_trim_le _) hpot)
    · rw [if_neg hpot]
      have hpc : ∀ c ∈ (if st.currentChunk = "" then st.chunks
          else st.chunks ++ [jsTrim st.currentChunk]), estimateTokenCount c ≤ max := by
        intro c hc
        by_cases h0 : st.currentChunk = ""
        · rw [if_pos h0] at hc; exact hch c hc
        · rw [if_neg h0] at hc
          rcases List.mem_append.mp hc with h | h
          · exact hch c h
          · rw [List.mem_singleton.mp h]; exact hcc
      by_cases hbig : max < estimateTokenCount sentence
      · rw [if_pos hbig]
        have hwords := splitWordsLoop_bound max (splitWords sentence) ""
          (hss sentence (by simp)) (Nat.zero_le _)
        cases hsw : splitWordsLoop max (splitWords sentence) "" with
        | mk wordPushed wordChunk =>
          rw [hsw] at hwords
          dsimp only at hwords ⊢
          apply ih _ (fun s hs => hss s (by simp [hs]))
          · intro c hc
            rcases List.mem_append.mp hc with h | h
            · exact hpc c h
            · exact hwords.1 c h
          · exact hwords.2
      · rw [if_neg hbig]
        apply ih _ (fun s hs => hss s (by simp [hs])) hpc
        rw [jsTrim_append_space]
        exact le_trans (estimateTokenCount_trim_le _) (by omega)

/-- C10 (amended): every chunk produced by `splitContent` has an estimated
token count within `maxChunkSize`, provided no single space-delimited word
of any sentence of the content itself exceeds the budget; a single
oversized word is passed through as an oversized chunk (see the
counterexample). -/
theorem splitContent_chunks_bound (content : String) (maxChunkSize : Nat)
    (hw : ∀ s ∈ splitSentences content, ∀ w ∈ splitWords s,
      estimateTokenCount w ≤ maxChunkSize) :
    ∀ c ∈ splitContent content maxChunkSize, estimateTokenCount c ≤ maxChunkSize := by
  intro c hc
  unfold splitContent at hc
  by_cases h0 : content = ""
  · rw [if_pos h0] at hc
    rw [List.mem_singleton.mp hc]
    exact Nat.zero_le _
  · rw [if_neg h0] at hc
    by_cases hsmall : estimateTokenCount content ≤ maxChunkSize
    · rw [if_pos hsmall] at hc
      rw [List.mem_singleton.mp hc]
      exact hsmall
    · rw [if_neg hsmall] at hc
      dsimp only at hc
      have hloop := splitSentenceLoop_bound maxChunkSize (splitSentences content)
        { chunks := [], currentChunk := "" } hw (by simp) (Nat.zero_le _)
      set st := splitSentenceLoop maxChunkSize (splitSentences content)
        { chunks := [], currentChunk := "" } with hst
      by_cases hcc : st.currentChunk = ""
      · rw [if_pos hcc] at hc
        exact hloop.1 c hc
      · rw [if_neg hcc] at hc
        rcases List.mem_append.mp hc with h | h
        · exact hloop.1 c h
        · rw [List.mem_singleton.mp h]
          exact hloop.2

/-- C10 witness: the bound applied to a concrete multi-sentence content at
budget 3, checked over all produced chunks. -/
theorem splitContent_chunks_bound_witness :
    ((splitContent ("One two three. Four five six. Seven eight.") 3).all
      (fun c => decide (estimateTokenCount c ≤ 3))) = true := by
  apply List.all_eq_true.mpr
  intro c hc
  rw [decide_eq_true_eq]
  exact splitContent_chunks_bound ("One two three. Four five six. Seven eight.") 3
    (by decide) c hc

/-- C10 counterexample: a single word whose own estimate exceeds the
budget defeats the splitter — `splitContent("aaaaaaaa", 1)` returns the
whole word as one chunk whose estimate 2 exceeds the requested bound 1. -/
theorem splitContent_oversized_word :
    splitContent ("aaaaaaaa") 1 = [("aaaaaaaa")] ∧
    1 < estimateTokenCount ("aaaaaaaa") := by
  exact ⟨rfl, by decide⟩

/-- C9 (amended): in the `claude-assistant.js` handler the temperature sent
to the provider is always in `[0, 1]` and the max-tokens value a positive
integer, with defaults 0.7 and 4000 substituted for missing, unparsable or
out-of-range fields; in the `cors-handler.js` `BaseModelProvider` the
temperature is likewise forced into `[0, 1]` and the max-tokens value is a
positive (never NaN) number, but it is not coerced to an integer. -/
theorem modelConfig_validation (t : Option FloatParse) (f : Option (Option ℤ))
    (tc : Option JsNum) (mc : Option JsNum) :
    (0 ≤ resolveTemperature t ∧ resolveTemperature t ≤ 1) ∧
    (0 < resolveMaxTokens f) ∧
    (0 ≤ corsTemperature tc ∧ corsTemperature tc ≤ 1) ∧
    (∃ q : ℚ, corsMaxTokens mc = JsNum.val q ∧ 0 < q) := by
  refine ⟨?_, ?_, ?_, ?_⟩
  · rcases t with _ | (_ | _ | _ | q)
    · norm_num [resolveTemperature]
    · norm_num [resolveTemperature]
    · norm_num [resolveTemperature]
    · norm_num [resolveTemperature]
    · dsimp only [resolveTemperature]
      split_ifs with h
      · norm_num
      · push_neg at h
        exact ⟨h.1, h.2⟩
  · rcases f with _ | (_ | n)
    · norm_num [resolveMaxTokens]
    · norm_num [resolveMaxTokens]
    · dsimp only [resolveMaxTokens]
      split_ifs with h
      · norm_num
      · omega
  · rcases tc with _ | (_ | q)
    · norm_num [corsTemperature]
    · norm_num [corsTemperature]
    · dsimp only [corsTemperature]
      by_cases h0 : q = 0
      · rw [if_pos h0]
        norm_num
      · rw [if_neg h0]
        dsimp only
        split_ifs with h
        · norm_num
        · push_neg at h
          exact ⟨h.1, h.2⟩
  · rcases mc with _ | (_ | q)
    · exact ⟨4000, rfl, by norm_num⟩
    · exact ⟨4000, rfl, by norm_num⟩
    · dsimp only [corsMaxTokens]
      by_cases h0 : q = 0
      · rw [if_pos h0]
        exact ⟨4000, by norm_num, by norm_num⟩
      · rw [if_neg h0]
        dsimp only
        by_cases h : q ≤ 0
        · rw [if_pos h]
          exact ⟨4000, rfl, by norm_num⟩
        · rw [if_neg h]
          push_neg at h
          exact ⟨q, rfl, h⟩

/-- C9 counterexample: a stored fractional `MaxTokens` of 2.5 passes the
`BaseModelProvider` validation unchanged (it is positive and not NaN), so
the payload max-tokens is not an integer, contradicting the claim that
non-integer stored values are replaced by the default 4000. -/
theorem corsMaxTokens_fractional :
    corsMaxTokens (some (JsNum.val (5 / 2))) = JsNum.val (5 / 2) ∧
    ¬ ∃ n : ℤ, (5 / 2 : ℚ) = (n : ℚ) := by
  constructor
  · norm_num [corsMaxTokens]
  · rintro ⟨n, hn⟩
    have h5 : (5 : ℚ) = 2 * (n : ℚ) := by
      field_simp at hn
      linarith
    have h5i : (5 : ℤ) = 2 * n := by exact_mod_cast h5
    omega

end ContentAssistant
